import Mathlib

/-!
# ssh-key-manager: user management over a remote execution channel

A shallow embedding of `users.go` (package `sshkeymanager`).  The Go methods on
`*Client` become functions that take the client state and return the Go result
together with the next client state.

* A `*passwd.User` result is an `Option User` (`none` is the nil pointer), an
  `error` result is an `Option Error` (`none` is the nil error).
* The receiver is a value of type `Client`; a nil receiver is excluded by the
  type, so the `c == nil` guard that opens `GetUsers` has no branch here.
* The execution channel, the parser and the command builders are not part of
  `users.go`; they are the fields of `Env`.
* `Client.trace` is a ghost record of every command handed to the execution
  channel and of every call of `CreateHome` and of its two collaborators, in
  order.  `Client.logged` is the output of `log.Println`.
-/

namespace SSHKeyManager

/-- Modelled from the spec: the type `passwd.User` is declared in the package
`passwd`; section 3 of the specification lists its fields as Name, UID (a
string), GID, comment, home directory and login shell. -/
structure User where
  Name : String
  UID : String
  GID : String
  Comment : String
  Home : String
  Shell : String
deriving DecidableEq, Repr

/-- Go `error` values: `errors.New msg` and `errors.Wrap cause msg`. -/
inductive Error where
  | new (msg : String)
  | wrap (cause : Error) (msg : String)
deriving DecidableEq, Repr

/-- What `c.Execute` returns: stdout, stderr and the error. -/
structure ExecResult where
  so : String
  se : String
  err : Option Error
deriving DecidableEq, Repr

/-- Ghost events recorded in `Client.trace`. -/
inductive Event where
  | exec (cmd : String)
  | createHome (u : User)
  | createSSHDir (u : User)
  | chownHomedir (u : User)
deriving DecidableEq, Repr

/-- The collaborators of `users.go`, for a remote host whose state has type `σ`.
`Execute` is the execution channel, `Parse` is `passwd.Parse`, `UserAdd` and
`UserDelete` are the command builders of `passwd.User`, `Quote` is
`shellescape.Quote`, and `createSSHDir` and `chownHomedir` are the two client
helpers used by `CreateHome`, which act on the remote host. -/
structure Env (σ : Type) where
  Execute : σ → String → ExecResult × σ
  Parse : String → Except Error (List User)
  UserAdd : User → String
  UserDelete : User → Bool → String
  Quote : String → String
  createSSHDir : σ → User → Option Error × σ
  chownHomedir : σ → User → Option Error × σ

/-- The client: `UsersCache` is the `*[]passwd.User` field (`none` is nil),
`host` is the state of the remote host behind the channel. -/
structure Client (σ : Type) where
  UsersCache : Option (List User)
  host : σ
  trace : List Event
  logged : List Error
deriving DecidableEq

deriving instance DecidableEq for Except

variable {σ : Type}

/-- The call `c.Execute(cmd)`: runs the channel and records the command. -/
def Execute (env : Env σ) (c : Client σ) (cmd : String) : ExecResult × Client σ :=
  ((env.Execute c.host cmd).1,
   { c with host := (env.Execute c.host cmd).2, trace := c.trace ++ [Event.exec cmd] })

/-- The call `c.createSSHDir(u)`. -/
def createSSHDir (env : Env σ) (c : Client σ) (u : User) : Option Error × Client σ :=
  ((env.createSSHDir c.host u).1,
   { c with host := (env.createSSHDir c.host u).2, trace := c.trace ++ [Event.createSSHDir u] })

/-- The call `c.chownHomedir(u)`. -/
def chownHomedir (env : Env σ) (c : Client σ) (u : User) : Option Error × Client σ :=
  ((env.chownHomedir c.host u).1,
   { c with host := (env.chownHomedir c.host u).2, trace := c.trace ++ [Event.chownHomedir u] })

/-- GetUsers lists all users from /etc/passwd (users.go, lines 12-29).  The
receiver is a non-nil client, so the guard of lines 13-15 (a nil receiver gives
the error "client not initialized") has no counterpart. -/
def GetUsers (env : Env σ) (c : Client σ) : Except Error (List User) × Client σ :=
  match c.UsersCache with
  | none =>
    match Execute env c "cat /etc/passwd" with
    | (⟨raw, se, some err⟩, c1) => (Except.error (Error.wrap err (raw ++ se)), c1)
    | (⟨raw, _, none⟩, c1) =>
      match env.Parse raw with
      | Except.error err => (Except.error err, c1)
      | Except.ok users => (Except.ok users, { c1 with UsersCache := some users })
  | some users => (Except.ok users, c)

/-- ClearUserCache clears user cache for a client (users.go, lines 32-35). -/
def ClearUserCache (c : Client σ) : Option Error × Client σ :=
  (none, { c with UsersCache := none })

/-- The `for _, u := range users` loop of `FindUser` (users.go, lines 54-58). -/
def FindUser.loop (user : User) : List User → Option User
  | [] => none
  | u :: rest =>
    if u.UID = user.UID ∨ u.Name = user.Name then some u else FindUser.loop user rest

/-- FindUser finds a user by a `passwd.User` object (users.go, lines 48-60). -/
def FindUser (env : Env σ) (c : Client σ) (user : User) :
    (Option User × Option Error) × Client σ :=
  match GetUsers env c with
  | (Except.error err, c1) => ((none, none), { c1 with logged := c1.logged ++ [err] })
  | (Except.ok users, c1) => ((FindUser.loop user users, none), c1)

/-- GetUserByUid finds user in /etc/passwd by uid (users.go, lines 38-40). -/
def GetUserByUid (env : Env σ) (c : Client σ) (uid : String) :
    (Option User × Option Error) × Client σ :=
  FindUser env c { Name := "", UID := uid, GID := "", Comment := "", Home := "", Shell := "" }

/-- GetUserByName finds user in /etc/passwd by name (users.go, lines 43-45). -/
def GetUserByName (env : Env σ) (c : Client σ) (name : String) :
    (Option User × Option Error) × Client σ :=
  FindUser env c { Name := name, UID := "", GID := "", Comment := "", Home := "", Shell := "" }

/-- CreateHome creates user's home directory (users.go, lines 63-87). -/
def CreateHome (env : Env σ) (c : Client σ) (u : User) :
    (Option User × Option Error) × Client σ :=
  let c0 : Client σ := { c with trace := c.trace ++ [Event.createHome u] }
  if u.Name = "" then ((none, some (Error.new "user name cannot be empty")), c0)
  else
    let u1 : User := if u.Home = "" then { u with Home := "/home/" ++ u.Name } else u
    match createSSHDir env c0 u1 with
    | (some err, c1) => ((none, some err), c1)
    | (none, c1) =>
      match Execute env c1 ("cp -rT /etc/skel " ++ env.Quote u1.Home) with
      | (⟨so, se, some err⟩, c2) => ((none, some (Error.wrap err (so ++ se))), c2)
      | (⟨_, _, none⟩, c2) =>
        match chownHomedir env c2 u1 with
        | (some err, c3) => ((none, some err), c3)
        | (none, c3) => ((some u1, none), c3)

/-- AddUser adds a user (users.go, lines 90-119). -/
def AddUser (env : Env σ) (c : Client σ) (user : User) (createHome : Bool) :
    (Option User × Option Error) × Client σ :=
  if user.Name = "" then ((none, some (Error.new "user name cannot be empty")), c)
  else
    match FindUser env c user with
    | ((some u, _), c1) => ((some u, none), c1)
    | ((none, _), c1) =>
      match Execute env c1 (env.UserAdd user) with
      | (⟨so, se, some err⟩, c2) => ((none, some (Error.wrap err (so ++ se))), c2)
      | (⟨_, _, none⟩, c2) =>
        match FindUser env (ClearUserCache c2).2 user with
        | ((none, _), c3) => ((none, some (Error.new "failed to add user")), c3)
        | ((some u, _), c3) =>
          if createHome then CreateHome env c3 u else ((some u, none), c3)

/-- DeleteUser deletes a user (users.go, lines 122-144). -/
def DeleteUser (env : Env σ) (c : Client σ) (user : User) (removeHome : Bool) :
    (Option User × Option Error) × Client σ :=
  match FindUser env c user with
  | ((none, _), c1) => ((none, some (Error.new "user not found, so not deleted")), c1)
  | ((some u, _), c1) =>
    if u.Name = "" then ((none, some (Error.new "user name cannot be empty")), c1)
    else
      match Execute env c1 (env.UserDelete u removeHome) with
      | (⟨so, se, some err⟩, c2) => ((none, some (Error.wrap err (so ++ se))), c2)
      | (⟨_, _, none⟩, c2) =>
        match FindUser env (ClearUserCache c2).2 user with
        | ((some _, _), c3) => ((some u, some (Error.new "failed to delete user")), c3)
        | ((none, _), c3) => ((some u, none), c3)

/-! ## A concrete environment

A scripted execution channel (the remote host is the list of replies it will
still give) and a line parser, on which the operations can be evaluated. -/

/-- Splits a character list at every occurrence of `sep`. -/
def splitAt (sep : Char) : List Char → List (List Char)
  | [] => [[]]
  | ch :: rest =>
    if ch = sep then [] :: splitAt sep rest
    else
      match splitAt sep rest with
      | [] => [[ch]]
      | field :: fields => (ch :: field) :: fields

/-- One line of the user database: exactly seven colon-separated fields (name,
password placeholder, uid, gid, comment, home, shell). -/
def parseLine (line : List Char) : Except Error User :=
  match splitAt ':' line with
  | [name, _, uid, gid, comment, home, shell] =>
    Except.ok { Name := String.mk name, UID := String.mk uid, GID := String.mk gid,
                Comment := String.mk comment, Home := String.mk home, Shell := String.mk shell }
  | _ => Except.error (Error.new ("unexpected number of fields: " ++ String.mk line))

/-- Parses the lines in order, skipping empty ones and failing on the first
malformed one. -/
def parseLines : List (List Char) → Except Error (List User)
  | [] => Except.ok []
  | line :: rest =>
    if line = [] then parseLines rest
    else
      match parseLine line with
      | Except.error err => Except.error err
      | Except.ok u =>
        match parseLines rest with
        | Except.error err => Except.error err
        | Except.ok us => Except.ok (u :: us)

/-- Modelled from the spec: `passwd.Parse` belongs to the package `passwd`,
which is not part of `users.go`.  Section 4.1: one record per non-empty line,
exactly 7 colon-separated fields, input order preserved, blank lines skipped,
and the whole parse fails on the first line with another field count. -/
def Parse (raw : String) : Except Error (List User) :=
  parseLines (splitAt '\n' raw.data)

/-- The scripted channel: every command consumes the next reply of the script;
an exhausted script reports a closed channel. -/
def scriptExecute : List ExecResult → String → ExecResult × List ExecResult
  | [], _ => (⟨"", "", some (Error.new "channel closed")⟩, [])
  | reply :: rest, _ => (reply, rest)

/-- The environment of the scripted channel.  The command builders produce
plain `useradd` and `userdel` command lines and the two helpers of
`CreateHome` succeed without consuming a reply. -/
def scriptEnv : Env (List ExecResult) where
  Execute := scriptExecute
  Parse := Parse
  UserAdd := fun u => "useradd " ++ u.Name
  UserDelete := fun u removeHome =>
    if removeHome then "userdel -r " ++ u.Name else "userdel " ++ u.Name
  Quote := fun s => s
  createSSHDir := fun s _ => (none, s)
  chownHomedir := fun s _ => (none, s)

/-- A reply that succeeds with the given standard output. -/
def okReply (so : String) : ExecResult := ⟨so, "", none⟩

/-- A reply that fails with the given standard error text. -/
def failReply (se : String) : ExecResult := ⟨"", se, some (Error.new "exit status 1")⟩

/-- A fresh client (Empty cache, nothing traced) in front of a script. -/
def freshClient (script : List ExecResult) : Client (List ExecResult) :=
  { UsersCache := none, host := script, trace := [], logged := [] }

/-- A query record with only the two identifying fields set. -/
def query (name uid : String) : User :=
  { Name := name, UID := uid, GID := "", Comment := "", Home := "", Shell := "" }

/-- A two-account database. -/
def dbRootBob : String :=
  "root:x:0:0:root:/root:/bin/bash\nbob:x:1001:1001:Bob:/home/bob:/bin/sh\n"

/-- The record of `root` in `dbRootBob`. -/
def rootUser : User :=
  { Name := "root", UID := "0", GID := "0", Comment := "root", Home := "/root", Shell := "/bin/bash" }

/-- The record of `bob` in `dbRootBob`. -/
def bobUser : User :=
  { Name := "bob", UID := "1001", GID := "1001", Comment := "Bob", Home := "/home/bob",
    Shell := "/bin/sh" }

/-! ## Vocabulary of the statements -/

/-- The read command of `GetUsers`. -/
def readCmd : String := "cat /etc/passwd"

/-- The events one `GetUsers` call adds to the trace of `c`: nothing when the
cache is Populated, the database read when it is Empty. -/
def readEvents (c : Client σ) : List Event :=
  match c.UsersCache with
  | some _ => []
  | none => [Event.exec readCmd]

/-- The comparison `FindUser` makes between a record `r` and the query `q`. -/
def codeMatch (q r : User) : Prop := r.UID = q.UID ∨ r.Name = q.Name

instance (q r : User) : Decidable (codeMatch q r) := by
  unfold codeMatch; infer_instance

/-- The match rule in the words of the specification: a query field counts
only when it is non-empty. -/
def specMatch (q r : User) : Prop :=
  (q.UID ≠ "" ∧ q.UID = r.UID) ∨ (q.Name ≠ "" ∧ q.Name = r.Name)

instance (q r : User) : Decidable (specMatch q r) := by
  unfold specMatch; infer_instance

/-- The record `r` is the first one of `users` that satisfies `P`. -/
def IsFirst (P : User → Prop) (users : List User) (r : User) : Prop :=
  ∃ before after, users = before ++ r :: after ∧ P r ∧ ∀ x ∈ before, ¬ P x

/-- The state in which the verification lookup of `AddUser` and `DeleteUser`
runs: the command `cmd` has been executed after the first lookup for `q` and
the cache has been cleared. -/
def afterCommand (env : Env σ) (c : Client σ) (q : User) (cmd : String) : Client σ :=
  (ClearUserCache (Execute env (FindUser env c q).2 cmd).2).2

/-- The query of `GetUserByName`. -/
def nameQuery (name : String) : User :=
  { Name := name, UID := "", GID := "", Comment := "", Home := "", Shell := "" }

/-- A database in which the first account has an empty uid field. -/
def dbSvcBob : String :=
  "svc:x::100:service:/:/bin/false\nbob:x:1001:1001:Bob:/home/bob:/bin/sh\n"

/-- The record of `svc` in `dbSvcBob`. -/
def svcUser : User :=
  { Name := "svc", UID := "", GID := "100", Comment := "service", Home := "/", Shell := "/bin/false" }

/-- What a read of the database on the host state `h` would cache: the parsed
sequence when both the read command and the parser succeed, nothing otherwise. -/
def reload (env : Env σ) (h : σ) : Option (List User) :=
  match (env.Execute h readCmd).1.err with
  | some _ => none
  | none =>
    match env.Parse (env.Execute h readCmd).1.so with
    | Except.error _ => none
    | Except.ok users => some users

/-- A client whose cache is Populated with `users`, in front of a script. -/
def cachedClient (users : List User) (script : List ExecResult) : Client (List ExecResult) :=
  { UsersCache := some users, host := script, trace := [], logged := [] }

/-- A database with the single account `root`. -/
def dbRoot : String := "root:x:0:0:root:/root:/bin/bash\n"

/-- A database in which uid 1001 belongs to the account `robert`. -/
def dbRootRobert : String :=
  "root:x:0:0:root:/root:/bin/bash\nrobert:x:1001:1001:Robert:/home/robert:/bin/sh\n"

/-- The record of `robert` in `dbRootRobert`. -/
def robertUser : User :=
  { Name := "robert", UID := "1001", GID := "1001", Comment := "Robert", Home := "/home/robert",
    Shell := "/bin/sh" }

/-- A database in which the account `bob` has uid 2002. -/
def dbRootBob2 : String :=
  "root:x:0:0:root:/root:/bin/bash\nbob:x:2002:2002:Bob:/home/bob:/bin/sh\n"

/-- The record of `bob` in `dbRootBob2`. -/
def bob2User : User :=
  { Name := "bob", UID := "2002", GID := "2002", Comment := "Bob", Home := "/home/bob",
    Shell := "/bin/sh" }

/-- The record `CreateHome` works with after lines 67-69: the input, with Home
set to the per-user default when it was empty. -/
def homeOf (u : User) : User :=
  if u.Home = "" then { u with Home := "/home/" ++ u.Name } else u

/-- The skeleton-copy command of `CreateHome` (line 76). -/
def copyCmd (env : Env σ) (u : User) : String :=
  "cp -rT /etc/skel " ++ env.Quote (homeOf u).Home

/-- The lookup in the words of the specification: the first record of the
sequence that satisfies the guarded match rule `specMatch`. -/
def specFind (q : User) : List User → Option User
  | [] => none
  | r :: rest => if specMatch q r then some r else specFind q rest

/-- The query of `GetUserByUid`. -/
def uidQuery (uid : String) : User :=
  { Name := "", UID := uid, GID := "", Comment := "", Home := "", Shell := "" }

/-- A three-account database. -/
def dbRootBobCarol : String :=
  "root:x:0:0:root:/root:/bin/bash\nbob:x:1001:1001:Bob:/home/bob:/bin/sh\ncarol:x:1002:1002:Carol:/home/carol:/bin/sh\n"

/-- A database in which the name `carol` occurs twice, once before `bob`. -/
def dbCarolBobCarol : String :=
  "carol:x:1000:1000:Carol:/home/carol:/bin/sh\nbob:x:1001:1001:Bob:/home/bob:/bin/sh\ncarol:x:1002:1002:Carol:/home/carol:/bin/sh\n"

/-- A database in which uid 1001 belongs to a record with an empty name. -/
def dbNamelessCarol : String :=
  ":x:1001:1001:Bob:/home/bob:/bin/sh\ncarol:x:1002:1002:Carol:/home/carol:/bin/sh\n"

/-- The record of `carol` with uid 1002. -/
def carolUser : User :=
  { Name := "carol", UID := "1002", GID := "1002", Comment := "Carol", Home := "/home/carol",
    Shell := "/bin/sh" }

/-- The record of `carol` with uid 1000 in `dbCarolBobCarol`. -/
def carol0User : User :=
  { Name := "carol", UID := "1000", GID := "1000", Comment := "Carol", Home := "/home/carol",
    Shell := "/bin/sh" }

/-- The record with an empty name in `dbNamelessCarol`. -/
def namelessUser : User :=
  { Name := "", UID := "1001", GID := "1001", Comment := "Bob", Home := "/home/bob",
    Shell := "/bin/sh" }

/-- The operations of a client, as a caller can sequence them. -/
inductive Op where
  | getUsers
  | clearUserCache
  | findUser (q : User)
  | addUser (user : User) (createHome : Bool)
  | deleteUser (q : User) (removeHome : Bool)
  | createHome (u : User)
deriving DecidableEq, Repr

/-- The client state after one operation. -/
def step (env : Env σ) (c : Client σ) : Op → Client σ
  | Op.getUsers => (GetUsers env c).2
  | Op.clearUserCache => (ClearUserCache c).2
  | Op.findUser q => (FindUser env c q).2
  | Op.addUser user createHome => (AddUser env c user createHome).2
  | Op.deleteUser q removeHome => (DeleteUser env c q removeHome).2
  | Op.createHome u => (CreateHome env c u).2

/-- The client state after a sequence of operations. -/
def run (env : Env σ) (c : Client σ) (ops : List Op) : Client σ :=
  ops.foldl (step env) c

/-- One traced event replayed on a pair of the host state and the parse result
of the most recent successful database read: an executed command moves the
host, and when it is the read command and both the read and the parser
succeed its parse result becomes the most recent one; the two helpers of
`CreateHome` move the host only. -/
def replayStep (env : Env σ) (s : σ × Option (List User)) : Event → σ × Option (List User)
  | Event.exec cmd =>
    ((env.Execute s.1 cmd).2,
     if cmd = readCmd then
       match reload env s.1 with
       | some users => some users
       | none => s.2
     else s.2)
  | Event.createHome _ => s
  | Event.createSSHDir u => ((env.createSSHDir s.1 u).2, s.2)
  | Event.chownHomedir u => ((env.chownHomedir s.1 u).2, s.2)

/-- The events replayed in order from the host state `h0`, before any read. -/
def replay (env : Env σ) (h0 : σ) (evs : List Event) : σ × Option (List User) :=
  evs.foldl (replayStep env) (h0, none)

/-- The cache invariant of a client `c` reached from the client `c0`: the
events traced since `c0` lead from the host of `c0` to the host of `c`, and the
cache of `c` is Empty or holds the parse result of the most recent successful
database read among those events. -/
def CacheInv (env : Env σ) (c0 c : Client σ) : Prop :=
  ∃ evs, c.trace = c0.trace ++ evs ∧ c.host = (replay env c0.host evs).1 ∧
    (c.UsersCache = none ∨ c.UsersCache = (replay env c0.host evs).2)

/-! ## Basic facts about the operations -/

theorem loop_eq_none (q : User) (users : List User) :
    FindUser.loop q users = none ↔ ∀ x ∈ users, ¬ codeMatch q x := by
  induction users with
  | nil => simp [FindUser.loop]
  | cons u rest ih =>
    by_cases h : u.UID = q.UID ∨ u.Name = q.Name
    · simp only [FindUser.loop, h, if_true]
      constructor
      · intro hcon; cases hcon
      · intro hall; exact absurd h (hall u (by simp))
    · simp only [FindUser.loop, h, if_false, ih]
      constructor
      · intro hall x hx
        rcases List.mem_cons.1 hx with rfl | hx
        · exact h
        · exact hall x hx
      · intro hall x hx
        exact hall x (by simp [hx])

theorem loop_eq_some (q : User) (users : List User) (r : User) :
    FindUser.loop q users = some r ↔ IsFirst (codeMatch q) users r := by
  induction users with
  | nil => simp [FindUser.loop, IsFirst]
  | cons u rest ih =>
    by_cases h : u.UID = q.UID ∨ u.Name = q.Name
    · simp only [FindUser.loop, h, if_true, Option.some.injEq]
      constructor
      · rintro rfl
        exact ⟨[], rest, rfl, h, by simp⟩
      · rintro ⟨before, after, heq, _, hbefore⟩
        cases before with
        | nil => simp at heq; exact heq.1
        | cons b bs =>
          simp at heq
          exact absurd (heq.1 ▸ h) (hbefore b (by simp))
    · simp only [FindUser.loop, h, if_false, ih]
      constructor
      · rintro ⟨before, after, heq, hr, hbefore⟩
        refine ⟨u :: before, after, by simp [heq], hr, ?_⟩
        intro x hx
        rcases List.mem_cons.1 hx with rfl | hx
        · exact h
        · exact hbefore x hx
      · rintro ⟨before, after, heq, hr, hbefore⟩
        cases before with
        | nil =>
          simp at heq
          exact absurd (heq.1 ▸ hr) h
        | cons b bs =>
          simp at heq
          exact ⟨bs, after, heq.2, hr, fun x hx => hbefore x (by simp [hx])⟩

theorem loop_some_mem {q : User} {users : List User} {r : User}
    (h : FindUser.loop q users = some r) : r ∈ users ∧ codeMatch q r := by
  obtain ⟨before, after, heq, hr, _⟩ := (loop_eq_some q users r).1 h
  exact ⟨by simp [heq], hr⟩

theorem GetUsers_populated (env : Env σ) (c : Client σ) (users : List User)
    (h : c.UsersCache = some users) : GetUsers env c = (Except.ok users, c) := by
  simp [GetUsers, h]

/-- The three ways a `GetUsers` call can go. -/
theorem GetUsers_cases (env : Env σ) (c : Client σ) :
    (∃ users, c.UsersCache = some users ∧ GetUsers env c = (Except.ok users, c)) ∨
    (c.UsersCache = none ∧
      ∃ err, GetUsers env c = (Except.error err, (Execute env c readCmd).2)) ∨
    (c.UsersCache = none ∧ (env.Execute c.host readCmd).1.err = none ∧
      ∃ users, env.Parse (env.Execute c.host readCmd).1.so = Except.ok users ∧
        GetUsers env c =
          (Except.ok users, { (Execute env c readCmd).2 with UsersCache := some users })) := by
  cases hc : c.UsersCache with
  | some users => exact Or.inl ⟨users, rfl, GetUsers_populated env c users hc⟩
  | none =>
    right
    rcases hx : env.Execute c.host readCmd with ⟨⟨raw, se, err⟩, h1⟩
    have hx2 : env.Execute c.host "cat /etc/passwd" = (⟨raw, se, err⟩, h1) := hx
    cases err with
    | some e =>
      left
      refine ⟨rfl, Error.wrap e (raw ++ se), ?_⟩
      simp [GetUsers, hc, Execute, hx2, readCmd]
    | none =>
      cases hp : env.Parse raw with
      | error e =>
        left
        refine ⟨rfl, e, ?_⟩
        simp [GetUsers, hc, Execute, hx2, hp, readCmd]
      | ok users =>
        right
        refine ⟨rfl, rfl, users, rfl, ?_⟩
        simp [GetUsers, hc, Execute, hx2, hp, readCmd]

theorem GetUsers_trace (env : Env σ) (c : Client σ) :
    (GetUsers env c).2.trace = c.trace ++ readEvents c := by
  rcases GetUsers_cases env c with ⟨users, hc, h⟩ | ⟨hc, err, h⟩ | ⟨hc, _, users, _, h⟩
  · simp [h, readEvents, hc]
  · simp [h, readEvents, hc, Execute]
  · simp [h, readEvents, hc, Execute]

theorem GetUsers_ok_cache (env : Env σ) (c : Client σ) (users : List User)
    (h : (GetUsers env c).1 = Except.ok users) :
    (GetUsers env c).2.UsersCache = some users := by
  rcases GetUsers_cases env c with ⟨us, hc, h2⟩ | ⟨hc, err, h2⟩ | ⟨hc, _, us, _, h2⟩
  · rw [h2] at h ⊢
    simp at h
    simp [hc, h]
  · rw [h2] at h
    simp at h
  · rw [h2] at h ⊢
    simp at h
    simp [h]

theorem GetUsers_error_cache (env : Env σ) (c : Client σ) (err : Error)
    (h : (GetUsers env c).1 = Except.error err) :
    c.UsersCache = none ∧ (GetUsers env c).2.UsersCache = none := by
  rcases GetUsers_cases env c with ⟨us, hc, h2⟩ | ⟨hc, e, h2⟩ | ⟨hc, _, us, _, h2⟩
  · rw [h2] at h
    simp at h
  · rw [h2]
    simp [hc, Execute]
  · rw [h2] at h
    simp at h

theorem FindUser_of_ok (env : Env σ) (c : Client σ) (q : User) (users : List User)
    (h : (GetUsers env c).1 = Except.ok users) :
    FindUser env c q = ((FindUser.loop q users, none), (GetUsers env c).2) := by
  rcases hG : GetUsers env c with ⟨res, c1⟩
  rw [hG] at h
  simp at h
  subst h
  simp [FindUser, hG]

theorem FindUser_of_error (env : Env σ) (c : Client σ) (q : User) (err : Error)
    (h : (GetUsers env c).1 = Except.error err) :
    FindUser env c q =
      ((none, none), { (GetUsers env c).2 with logged := (GetUsers env c).2.logged ++ [err] }) := by
  rcases hG : GetUsers env c with ⟨res, c1⟩
  rw [hG] at h
  simp at h
  subst h
  simp [FindUser, hG]

theorem FindUser_populated (env : Env σ) (c : Client σ) (q : User) (users : List User)
    (h : c.UsersCache = some users) :
    FindUser env c q = ((FindUser.loop q users, none), c) := by
  have hG := GetUsers_populated env c users h
  rw [FindUser_of_ok env c q users (by rw [hG]), hG]

theorem FindUser_err (env : Env σ) (c : Client σ) (q : User) :
    (FindUser env c q).1.2 = none := by
  cases hG : (GetUsers env c).1 with
  | error err => rw [FindUser_of_error env c q err hG]
  | ok users => rw [FindUser_of_ok env c q users hG]

theorem FindUser_trace (env : Env σ) (c : Client σ) (q : User) :
    (FindUser env c q).2.trace = c.trace ++ readEvents c := by
  cases hG : (GetUsers env c).1 with
  | error err => rw [FindUser_of_error env c q err hG]; exact GetUsers_trace env c
  | ok users => rw [FindUser_of_ok env c q users hG]; exact GetUsers_trace env c

/-- A record resolved by `FindUser` comes from a sequence that is cached when
the call returns. -/
theorem FindUser_some (env : Env σ) (c : Client σ) (q r : User)
    (h : (FindUser env c q).1.1 = some r) :
    ∃ users, (GetUsers env c).1 = Except.ok users ∧
      (FindUser env c q).2.UsersCache = some users ∧ FindUser.loop q users = some r := by
  cases hG : (GetUsers env c).1 with
  | error err =>
    rw [FindUser_of_error env c q err hG] at h
    simp at h
  | ok users =>
    rw [FindUser_of_ok env c q users hG] at h ⊢
    exact ⟨users, rfl, GetUsers_ok_cache env c users hG, h⟩

/-- When `FindUser` resolves nothing and leaves the cache Populated, no cached
record matches the query. -/
theorem FindUser_none_cached (env : Env σ) (c : Client σ) (q : User) (users : List User)
    (h : (FindUser env c q).1.1 = none)
    (hc : (FindUser env c q).2.UsersCache = some users) :
    FindUser.loop q users = none := by
  cases hG : (GetUsers env c).1 with
  | error err =>
    rw [FindUser_of_error env c q err hG] at hc
    have := (GetUsers_error_cache env c err hG).2
    simp [this] at hc
  | ok us =>
    rw [FindUser_of_ok env c q us hG] at h hc
    have := GetUsers_ok_cache env c us hG
    simp only [this, Option.some.injEq] at hc
    subst hc
    exact h

theorem Execute_trace (env : Env σ) (c : Client σ) (cmd : String) :
    (Execute env c cmd).2.trace = c.trace ++ [Event.exec cmd] := rfl

theorem Execute_cache (env : Env σ) (c : Client σ) (cmd : String) :
    (Execute env c cmd).2.UsersCache = c.UsersCache := rfl

theorem afterCommand_cache (env : Env σ) (c : Client σ) (q : User) (cmd : String) :
    (afterCommand env c q cmd).UsersCache = none := rfl

theorem afterCommand_trace (env : Env σ) (c : Client σ) (q : User) (cmd : String) :
    (afterCommand env c q cmd).trace = c.trace ++ readEvents c ++ [Event.exec cmd] := by
  simp [afterCommand, ClearUserCache, Execute, FindUser_trace]

theorem AddUser_found (env : Env σ) (c : Client σ) (user u : User) (createHome : Bool)
    (hn : user.Name ≠ "") (h : (FindUser env c user).1.1 = some u) :
    AddUser env c user createHome = ((some u, none), (FindUser env c user).2) := by
  rcases hF : FindUser env c user with ⟨⟨ou, oe⟩, c1⟩
  rw [hF] at h
  simp at h
  subst h
  simp [AddUser, hn, hF]

theorem AddUser_exec_failed (env : Env σ) (c : Client σ) (user : User) (createHome : Bool)
    (err : Error) (hn : user.Name ≠ "") (h : (FindUser env c user).1.1 = none)
    (hx : (Execute env (FindUser env c user).2 (env.UserAdd user)).1.err = some err) :
    AddUser env c user createHome =
      ((none, some (Error.wrap err
          ((Execute env (FindUser env c user).2 (env.UserAdd user)).1.so ++
           (Execute env (FindUser env c user).2 (env.UserAdd user)).1.se))),
       (Execute env (FindUser env c user).2 (env.UserAdd user)).2) := by
  rcases hF : FindUser env c user with ⟨⟨ou, oe⟩, c1⟩
  rw [hF] at h hx
  simp at h
  subst h
  rcases hE : Execute env c1 (env.UserAdd user) with ⟨⟨so, se, oerr⟩, c2⟩
  rw [hE] at hx
  simp at hx
  subst hx
  simp [AddUser, hn, hF, hE]

theorem AddUser_exec_ok (env : Env σ) (c : Client σ) (user : User) (createHome : Bool)
    (hn : user.Name ≠ "") (h : (FindUser env c user).1.1 = none)
    (hx : (Execute env (FindUser env c user).2 (env.UserAdd user)).1.err = none) :
    AddUser env c user createHome =
      match (FindUser env (afterCommand env c user (env.UserAdd user)) user).1.1 with
      | none => ((none, some (Error.new "failed to add user")),
                 (FindUser env (afterCommand env c user (env.UserAdd user)) user).2)
      | some u =>
        if createHome then
          CreateHome env (FindUser env (afterCommand env c user (env.UserAdd user)) user).2 u
        else ((some u, none), (FindUser env (afterCommand env c user (env.UserAdd user)) user).2) := by
  unfold afterCommand
  rcases hF : FindUser env c user with ⟨⟨ou, oe⟩, c1⟩
  rw [hF] at h hx
  simp at h
  subst h
  rcases hE : Execute env c1 (env.UserAdd user) with ⟨⟨so, se, oerr⟩, c2⟩
  rw [hE] at hx
  simp at hx
  subst hx
  rcases hV : FindUser env (ClearUserCache c2).2 user with ⟨⟨ou, oe⟩, c3⟩
  cases ou <;> simp [AddUser, hn, hF, hE, hV]

theorem DeleteUser_not_found (env : Env σ) (c : Client σ) (user : User) (removeHome : Bool)
    (h : (FindUser env c user).1.1 = none) :
    DeleteUser env c user removeHome =
      ((none, some (Error.new "user not found, so not deleted")), (FindUser env c user).2) := by
  rcases hF : FindUser env c user with ⟨⟨ou, oe⟩, c1⟩
  rw [hF] at h
  simp at h
  subst h
  simp [DeleteUser, hF]

theorem DeleteUser_exec_failed (env : Env σ) (c : Client σ) (user u : User) (removeHome : Bool)
    (err : Error) (h : (FindUser env c user).1.1 = some u) (hn : u.Name ≠ "")
    (hx : (Execute env (FindUser env c user).2 (env.UserDelete u removeHome)).1.err = some err) :
    DeleteUser env c user removeHome =
      ((none, some (Error.wrap err
          ((Execute env (FindUser env c user).2 (env.UserDelete u removeHome)).1.so ++
           (Execute env (FindUser env c user).2 (env.UserDelete u removeHome)).1.se))),
       (Execute env (FindUser env c user).2 (env.UserDelete u removeHome)).2) := by
  rcases hF : FindUser env c user with ⟨⟨ou, oe⟩, c1⟩
  rw [hF] at h hx
  simp at h
  subst h
  rcases hE : Execute env c1 (env.UserDelete u removeHome) with ⟨⟨so, se, oerr⟩, c2⟩
  rw [hE] at hx
  simp at hx
  subst hx
  simp [DeleteUser, hn, hF, hE]

theorem DeleteUser_exec_ok (env : Env σ) (c : Client σ) (user u : User) (removeHome : Bool)
    (h : (FindUser env c user).1.1 = some u) (hn : u.Name ≠ "")
    (hx : (Execute env (FindUser env c user).2 (env.UserDelete u removeHome)).1.err = none) :
    DeleteUser env c user removeHome =
      match (FindUser env (afterCommand env c user (env.UserDelete u removeHome)) user).1.1 with
      | some _ => ((some u, some (Error.new "failed to delete user")),
                   (FindUser env (afterCommand env c user (env.UserDelete u removeHome)) user).2)
      | none => ((some u, none),
                 (FindUser env (afterCommand env c user (env.UserDelete u removeHome)) user).2) := by
  unfold afterCommand
  rcases hF : FindUser env c user with ⟨⟨ou, oe⟩, c1⟩
  rw [hF] at h hx
  simp at h
  subst h
  rcases hE : Execute env c1 (env.UserDelete u removeHome) with ⟨⟨so, se, oerr⟩, c2⟩
  rw [hE] at hx
  simp at hx
  subst hx
  rcases hV : FindUser env (ClearUserCache c2).2 user with ⟨⟨ou, oe⟩, c3⟩
  cases ou <;> simp [DeleteUser, hn, hF, hE, hV]

theorem CreateHome_cache (env : Env σ) (c : Client σ) (u : User) :
    (CreateHome env c u).2.UsersCache = c.UsersCache := by
  unfold CreateHome
  by_cases hn : u.Name = ""
  · simp [hn]
  · simp only [hn, if_false]
    split
    · rename_i err c1 h1
      have := congrArg (fun p => p.2.UsersCache) h1
      simpa [createSSHDir] using this.symm
    · rename_i c1 h1
      have e1 := congrArg (fun p => p.2.UsersCache) h1
      split
      · rename_i so se err c2 h2
        have e2 := congrArg (fun p => p.2.UsersCache) h2
        simp [createSSHDir, Execute] at e1 e2 ⊢
        rw [← e2, ← e1]
      · rename_i so se c2 h2
        have e2 := congrArg (fun p => p.2.UsersCache) h2
        split
        · rename_i err c3 h3
          have e3 := congrArg (fun p => p.2.UsersCache) h3
          simp [createSSHDir, Execute, chownHomedir] at e1 e2 e3 ⊢
          rw [← e3, ← e2, ← e1]
        · rename_i c3 h3
          have e3 := congrArg (fun p => p.2.UsersCache) h3
          simp [createSSHDir, Execute, chownHomedir] at e1 e2 e3 ⊢
          rw [← e3, ← e2, ← e1]

/-! ## C1: the match rule of `FindUser` -/

/-- C1: the code breaks the claim, and the comments of its own lookups. On a
database whose first record has an empty uid, `GetUserByName "bob"`, which
users.go documents as finding the user by name, returns that first record
`svc`: its empty UID equals the empty UID of the name-only query. The first
record the guarded rule of the claim selects is `bob`. Likewise, on a database
whose first record has an empty name, `GetUserByUid "1002"`, documented as
finding the user by uid, returns that nameless record of uid 1001, where the
guarded rule selects `carol`. -/
theorem C1_guarded_rule_fails :
    (GetUsers scriptEnv (freshClient [okReply dbSvcBob])).1 = Except.ok [svcUser, bobUser] ∧
    IsFirst (specMatch (nameQuery "bob")) [svcUser, bobUser] bobUser ∧
    (GetUserByName scriptEnv (freshClient [okReply dbSvcBob]) "bob").1 = (some svcUser, none) ∧
    (FindUser scriptEnv (freshClient [okReply dbSvcBob]) (nameQuery "bob")).1 ≠
      (some bobUser, none) ∧
    (GetUsers scriptEnv (freshClient [okReply dbNamelessCarol])).1 =
      Except.ok [namelessUser, carolUser] ∧
    IsFirst (specMatch (uidQuery "1002")) [namelessUser, carolUser] carolUser ∧
    (GetUserByUid scriptEnv (freshClient [okReply dbNamelessCarol]) "1002").1 =
      (some namelessUser, none) := by
  refine ⟨by decide, ⟨[svcUser], [], rfl, by decide, by decide⟩, by decide, by decide,
    by decide, ⟨[namelessUser], [], rfl, by decide, by decide⟩, by decide⟩

/-- What the loop of `FindUser` computes on a sequence `users` that `GetUsers`
returns: a nil error and the first record `r` of `users` (in order) with
`r.UID = q.UID` or `r.Name = q.Name`, the fields being compared as they are;
no record exactly when no record of `users` satisfies that comparison. -/
theorem FindUser_first_match (env : Env σ) (c : Client σ) (q : User) (users : List User)
    (h : (GetUsers env c).1 = Except.ok users) :
    (FindUser env c q).1.2 = none ∧
    (∀ r, (FindUser env c q).1.1 = some r ↔ IsFirst (codeMatch q) users r) ∧
    ((FindUser env c q).1.1 = none ↔ ∀ x ∈ users, ¬ codeMatch q x) ∧
    (∀ uid, (GetUserByUid env c uid).1.1 = none ↔ ∀ x ∈ users, x.UID ≠ uid ∧ x.Name ≠ "") ∧
    (∀ name, (GetUserByName env c name).1.1 = none ↔
      ∀ x ∈ users, x.UID ≠ "" ∧ x.Name ≠ name) := by
  refine ⟨FindUser_err env c q, ?_, ?_, ?_, ?_⟩
  · intro r
    rw [FindUser_of_ok env c q users h]
    exact loop_eq_some q users r
  · rw [FindUser_of_ok env c q users h]
    exact loop_eq_none q users
  · intro uid
    unfold GetUserByUid
    rw [FindUser_of_ok env c _ users h]
    simp [loop_eq_none, codeMatch]
  · intro name
    unfold GetUserByName
    rw [FindUser_of_ok env c _ users h]
    simp [loop_eq_none, codeMatch]

theorem GetUsers_empty_cache (env : Env σ) (c : Client σ) (hc : c.UsersCache = none) :
    (GetUsers env c).2.UsersCache = reload env c.host := by
  rcases GetUsers_cases env c with ⟨us, hc2, _⟩ | ⟨_, err, h2⟩ | ⟨_, he, us, hp, h2⟩
  · rw [hc] at hc2; cases hc2
  · have h3 := GetUsers_error_cache env c err (by rw [h2])
    rw [h3.2]
    unfold reload
    cases hx : (env.Execute c.host readCmd).1.err with
    | some e => rfl
    | none =>
      cases hp : env.Parse (env.Execute c.host readCmd).1.so with
      | error e => rfl
      | ok us =>
        exfalso
        rcases hE : env.Execute c.host readCmd with ⟨⟨raw, se, oerr⟩, h1⟩
        rw [hE] at hx hp
        simp at hx hp
        subst hx
        have hE2 : env.Execute c.host "cat /etc/passwd" = (⟨raw, se, none⟩, h1) := hE
        simp [GetUsers, hc, Execute, hE2, hp] at h2
  · rw [h2]
    simp [reload, he, hp]

theorem FindUser_cache (env : Env σ) (c : Client σ) (q : User) :
    (FindUser env c q).2.UsersCache = (GetUsers env c).2.UsersCache := by
  cases hG : (GetUsers env c).1 with
  | error err => rw [FindUser_of_error env c q err hG]
  | ok users => rw [FindUser_of_ok env c q users hG]

theorem FindUser_host (env : Env σ) (c : Client σ) (q : User) :
    (FindUser env c q).2.host = (GetUsers env c).2.host := by
  cases hG : (GetUsers env c).1 with
  | error err => rw [FindUser_of_error env c q err hG]
  | ok users => rw [FindUser_of_ok env c q users hG]

theorem afterCommand_reload (env : Env σ) (c : Client σ) (q : User) (cmd : String) :
    (FindUser env (afterCommand env c q cmd) q).2.UsersCache =
      reload env (env.Execute (FindUser env c q).2.host cmd).2 := by
  rw [FindUser_cache, GetUsers_empty_cache env _ (afterCommand_cache env c q cmd)]
  rfl

/-! ## C2: the cache after a mutation command -/

/-- C2, as stated, fails: with a Populated cache, `AddUser` for a user that is
not cached issues its creation command, the command fails, and the call
returns with the cache still holding the sequence cached before the call; the
same happens to `DeleteUser` when its deletion command fails. -/
theorem C2_failed_command_keeps_cache :
    (AddUser scriptEnv (cachedClient [rootUser] [failReply "useradd: cannot lock /etc/passwd"])
        (nameQuery "bob") false).2.trace = [Event.exec "useradd bob"] ∧
    (AddUser scriptEnv (cachedClient [rootUser] [failReply "useradd: cannot lock /etc/passwd"])
        (nameQuery "bob") false).1 =
      (none, some (Error.wrap (Error.new "exit status 1") "useradd: cannot lock /etc/passwd")) ∧
    (AddUser scriptEnv (cachedClient [rootUser] [failReply "useradd: cannot lock /etc/passwd"])
        (nameQuery "bob") false).2.UsersCache = some [rootUser] ∧
    (DeleteUser scriptEnv (cachedClient [rootUser, bobUser] [failReply "userdel: busy"])
        (nameQuery "bob") false).2.trace = [Event.exec "userdel bob"] ∧
    (DeleteUser scriptEnv (cachedClient [rootUser, bobUser] [failReply "userdel: busy"])
        (nameQuery "bob") false).2.UsersCache = some [rootUser, bobUser] := by
  refine ⟨by decide, by decide, by decide, by decide, by decide⟩

/-- C2, amended: for a client whose cache is Populated with `users`, when
`AddUser` (the user is named and not cached) or `DeleteUser` (the query
resolves to a named cached record) issues its command, then (a) if the command
succeeds, the sequence cached before the call is discarded and the cache holds
what a fresh read of the database, made after the command, yields (Empty when
that read fails); (b) if the command fails with the error `err`, the call
returns no record and `err` wrapped with stdout and stderr, the command is the
only thing it has issued, so it returns before any invalidation, and the cache
still holds `users`. -/
theorem C2_cache_after_mutation (env : Env σ) (c : Client σ) (users : List User)
    (user : User) (createHome removeHome : Bool) (hc : c.UsersCache = some users) :
    (user.Name ≠ "" → FindUser.loop user users = none →
      ((env.Execute c.host (env.UserAdd user)).1.err = none →
        (AddUser env c user createHome).2.UsersCache =
          reload env (env.Execute c.host (env.UserAdd user)).2) ∧
      (∀ err, (env.Execute c.host (env.UserAdd user)).1.err = some err →
        (AddUser env c user createHome).1 =
          (none, some (Error.wrap err
            ((env.Execute c.host (env.UserAdd user)).1.so ++
             (env.Execute c.host (env.UserAdd user)).1.se))) ∧
        (AddUser env c user createHome).2.trace =
          c.trace ++ [Event.exec (env.UserAdd user)] ∧
        (AddUser env c user createHome).2.UsersCache = some users) ∧
      ((env.Execute c.host (env.UserAdd user)).1.err ≠ none →
        (AddUser env c user createHome).2.UsersCache = some users)) ∧
    (∀ u, FindUser.loop user users = some u → u.Name ≠ "" →
      ((env.Execute c.host (env.UserDelete u removeHome)).1.err = none →
        (DeleteUser env c user removeHome).2.UsersCache =
          reload env (env.Execute c.host (env.UserDelete u removeHome)).2) ∧
      (∀ err, (env.Execute c.host (env.UserDelete u removeHome)).1.err = some err →
        (DeleteUser env c user removeHome).1 =
          (none, some (Error.wrap err
            ((env.Execute c.host (env.UserDelete u removeHome)).1.so ++
             (env.Execute c.host (env.UserDelete u removeHome)).1.se))) ∧
        (DeleteUser env c user removeHome).2.trace =
          c.trace ++ [Event.exec (env.UserDelete u removeHome)] ∧
        (DeleteUser env c user removeHome).2.UsersCache = some users) ∧
      ((env.Execute c.host (env.UserDelete u removeHome)).1.err ≠ none →
        (DeleteUser env c user removeHome).2.UsersCache = some users)) := by
  have hF := FindUser_populated env c user users hc
  constructor
  · intro hn hl
    have h1 : (FindUser env c user).1.1 = none := by rw [hF]; exact hl
    have h2 : (FindUser env c user).2 = c := by rw [hF]
    have hfail : ∀ err, (env.Execute c.host (env.UserAdd user)).1.err = some err →
        (AddUser env c user createHome).1 =
          (none, some (Error.wrap err
            ((env.Execute c.host (env.UserAdd user)).1.so ++
             (env.Execute c.host (env.UserAdd user)).1.se))) ∧
        (AddUser env c user createHome).2.trace =
          c.trace ++ [Event.exec (env.UserAdd user)] ∧
        (AddUser env c user createHome).2.UsersCache = some users := by
      intro err he
      have hx2 : (Execute env (FindUser env c user).2 (env.UserAdd user)).1.err = some err := by
        rw [h2]; exact he
      rw [AddUser_exec_failed env c user createHome err hn h1 hx2, h2]
      exact ⟨rfl, rfl, hc⟩
    refine ⟨?_, hfail, ?_⟩
    · intro hx
      have hx2 : (Execute env (FindUser env c user).2 (env.UserAdd user)).1.err = none := by
        rw [h2]; exact hx
      rw [AddUser_exec_ok env c user createHome hn h1 hx2]
      have hr := afterCommand_reload env c user (env.UserAdd user)
      rw [h2] at hr
      cases hv : (FindUser env (afterCommand env c user (env.UserAdd user)) user).1.1 with
      | none => simpa using hr
      | some u =>
        cases createHome with
        | false => simpa using hr
        | true => simpa [CreateHome_cache] using hr
    · intro hx
      obtain ⟨err, he⟩ := Option.ne_none_iff_exists'.1 hx
      exact (hfail err he).2.2
  · intro u hl hn
    have h1 : (FindUser env c user).1.1 = some u := by rw [hF]; exact hl
    have h2 : (FindUser env c user).2 = c := by rw [hF]
    have hfail : ∀ err, (env.Execute c.host (env.UserDelete u removeHome)).1.err = some err →
        (DeleteUser env c user removeHome).1 =
          (none, some (Error.wrap err
            ((env.Execute c.host (env.UserDelete u removeHome)).1.so ++
             (env.Execute c.host (env.UserDelete u removeHome)).1.se))) ∧
        (DeleteUser env c user removeHome).2.trace =
          c.trace ++ [Event.exec (env.UserDelete u removeHome)] ∧
        (DeleteUser env c user removeHome).2.UsersCache = some users := by
      intro err he
      have hx2 : (Execute env (FindUser env c user).2 (env.UserDelete u removeHome)).1.err =
          some err := by
        rw [h2]; exact he
      rw [DeleteUser_exec_failed env c user u removeHome err h1 hn hx2, h2]
      exact ⟨rfl, rfl, hc⟩
    refine ⟨?_, hfail, ?_⟩
    · intro hx
      have hx2 : (Execute env (FindUser env c user).2 (env.UserDelete u removeHome)).1.err = none := by
        rw [h2]; exact hx
      rw [DeleteUser_exec_ok env c user u removeHome h1 hn hx2]
      have hr := afterCommand_reload env c user (env.UserDelete u removeHome)
      rw [h2] at hr
      cases hv : (FindUser env (afterCommand env c user (env.UserDelete u removeHome)) user).1.1 with
      | none => simpa using hr
      | some u2 => simpa using hr
    · intro hx
      obtain ⟨err, he⟩ := Option.ne_none_iff_exists'.1 hx
      exact (hfail err he).2.2

/-- C2, amended, on a scripted channel: a creation command that succeeds
leaves the cache holding the database as read after the command, and a
deletion command that fails returns the wrapped error with the cache as it
was. -/
theorem C2_cache_after_mutation_witness :
    ((AddUser scriptEnv (cachedClient [rootUser] [okReply "", okReply dbRootBob])
        (nameQuery "bob") false).2.UsersCache = reload scriptEnv [okReply dbRootBob] ∧
      reload scriptEnv [okReply dbRootBob] = some [rootUser, bobUser]) ∧
    ((DeleteUser scriptEnv (cachedClient [rootUser, bobUser] [failReply "userdel: busy"])
        (nameQuery "bob") true).1 =
        (none, some (Error.wrap (Error.new "exit status 1") ("" ++ "userdel: busy"))) ∧
      (DeleteUser scriptEnv (cachedClient [rootUser, bobUser] [failReply "userdel: busy"])
        (nameQuery "bob") true).2.trace =
        (cachedClient [rootUser, bobUser] [failReply "userdel: busy"]).trace ++
          [Event.exec (scriptEnv.UserDelete bobUser true)] ∧
      (DeleteUser scriptEnv (cachedClient [rootUser, bobUser] [failReply "userdel: busy"])
        (nameQuery "bob") true).2.UsersCache = some [rootUser, bobUser]) :=
  ⟨⟨((C2_cache_after_mutation scriptEnv (cachedClient [rootUser] [okReply "", okReply dbRootBob])
      [rootUser] (nameQuery "bob") false false rfl).1 (by decide) (by decide)).1 (by decide),
    by decide⟩,
   ((C2_cache_after_mutation scriptEnv
      (cachedClient [rootUser, bobUser] [failReply "userdel: busy"])
      [rootUser, bobUser] (nameQuery "bob") false true rfl).2 bobUser (by decide)
      (by decide)).2.1 (Error.new "exit status 1") (by decide)⟩

/-- The explicit result of `GetUsers` on an Empty cache. -/
theorem GetUsers_empty (env : Env σ) (c : Client σ) (hc : c.UsersCache = none) :
    GetUsers env c =
      match (env.Execute c.host readCmd).1.err with
      | some e =>
        (Except.error (Error.wrap e
          ((env.Execute c.host readCmd).1.so ++ (env.Execute c.host readCmd).1.se)),
         (Execute env c readCmd).2)
      | none =>
        match env.Parse (env.Execute c.host readCmd).1.so with
        | Except.error e => (Except.error e, (Execute env c readCmd).2)
        | Except.ok users =>
          (Except.ok users, { (Execute env c readCmd).2 with UsersCache := some users }) := by
  rcases hx : env.Execute c.host readCmd with ⟨⟨raw, se, err⟩, h1⟩
  have hx2 : env.Execute c.host "cat /etc/passwd" = (⟨raw, se, err⟩, h1) := hx
  cases err with
  | some e => simp [GetUsers, hc, Execute, hx2, readCmd]
  | none =>
    cases hp : env.Parse raw with
    | error e => simp [GetUsers, hc, Execute, hx2, hp, readCmd]
    | ok users => simp [GetUsers, hc, Execute, hx2, hp, readCmd]

/-! ## C3: adding a user that already exists -/

/-- C3, as stated, fails: with an Empty cache, `AddUser` for the existing
account `bob` returns the existing record with no error, but it has sent the
read command of `GetUsers` through the execution channel. -/
theorem C3_existing_user_read_issued :
    (AddUser scriptEnv (freshClient [okReply dbRootBob]) (nameQuery "bob") true).1 =
      (some bobUser, none) ∧
    (AddUser scriptEnv (freshClient [okReply dbRootBob]) (nameQuery "bob") true).2.trace =
      [Event.exec "cat /etc/passwd"] ∧
    (AddUser scriptEnv (freshClient [okReply dbRootBob]) (nameQuery "bob") true).2.trace ≠
      (freshClient [okReply dbRootBob]).trace := by
  refine ⟨by decide, by decide, by decide⟩

/-- C3, amended: for every client state and every desired user with a non-empty
Name, if the sequence `GetUsers` yields (the cached one when the cache is
Populated, a successful fresh read otherwise) contains a record matching the
user by UID or by Name, then `AddUser`, with either value of the create-home
flag, returns the first such record with no error and issues no command other
than the one database read `GetUsers` makes when the cache is Empty: with a
Populated cache the client is left exactly as it was. -/
theorem C3_AddUser_existing (env : Env σ) (c : Client σ) (user : User) (createHome : Bool)
    (users : List User) (r : User) (hn : user.Name ≠ "")
    (hG : (GetUsers env c).1 = Except.ok users) (hr : r ∈ users) (hm : codeMatch user r) :
    ∃ r0, IsFirst (codeMatch user) users r0 ∧
      AddUser env c user createHome = ((some r0, none), (GetUsers env c).2) ∧
      (AddUser env c user createHome).2.trace = c.trace ++ readEvents c ∧
      (c.UsersCache ≠ none → readEvents c = [] ∧ (AddUser env c user createHome).2 = c) := by
  cases hl : FindUser.loop user users with
  | none => exact absurd hm ((loop_eq_none user users).1 hl r hr)
  | some r0 =>
    have hF := FindUser_of_ok env c user users hG
    have h1 : (FindUser env c user).1.1 = some r0 := by rw [hF]; exact hl
    have hA := AddUser_found env c user r0 createHome hn h1
    rw [hF] at hA
    refine ⟨r0, (loop_eq_some user users r0).1 hl, hA, ?_, ?_⟩
    · rw [hA]; exact GetUsers_trace env c
    · intro hc
      obtain ⟨us, hus⟩ := Option.ne_none_iff_exists'.1 hc
      refine ⟨by simp [readEvents, hus], ?_⟩
      rw [hA, GetUsers_populated env c us hus]

/-- C3, amended, on a scripted channel with a Populated cache: no command is
issued and the cached record of `bob` is returned. -/
theorem C3_AddUser_existing_witness :
    ∃ r0, IsFirst (codeMatch (nameQuery "bob")) [rootUser, bobUser] r0 ∧
      AddUser scriptEnv (cachedClient [rootUser, bobUser] []) (nameQuery "bob") true =
        ((some r0, none), (GetUsers scriptEnv (cachedClient [rootUser, bobUser] [])).2) ∧
      (AddUser scriptEnv (cachedClient [rootUser, bobUser] []) (nameQuery "bob") true).2.trace =
        (cachedClient [rootUser, bobUser] []).trace ++
          readEvents (cachedClient [rootUser, bobUser] []) ∧
      ((cachedClient [rootUser, bobUser] []).UsersCache ≠ none →
        readEvents (cachedClient [rootUser, bobUser] []) = [] ∧
        (AddUser scriptEnv (cachedClient [rootUser, bobUser] []) (nameQuery "bob") true).2 =
          cachedClient [rootUser, bobUser] []) :=
  C3_AddUser_existing scriptEnv (cachedClient [rootUser, bobUser] []) (nameQuery "bob") true
    [rootUser, bobUser] bobUser (by decide) (by decide) (by decide) (by decide)

/-! ## C4: deleting a user that is not found -/

/-- C4, as stated, fails: with an Empty cache, `DeleteUser` for an account
that does not exist returns the not-found error, but the lookup has sent the
read command of `GetUsers` through the execution channel. -/
theorem C4_missing_user_read_issued :
    (DeleteUser scriptEnv (freshClient [okReply dbRootBob]) (nameQuery "alice") false).1 =
      (none, some (Error.new "user not found, so not deleted")) ∧
    (DeleteUser scriptEnv (freshClient [okReply dbRootBob]) (nameQuery "alice") false).2.trace =
      [Event.exec "cat /etc/passwd"] ∧
    (DeleteUser scriptEnv (freshClient [okReply dbRootBob]) (nameQuery "alice") false).2.trace ≠
      (freshClient [okReply dbRootBob]).trace := by
  refine ⟨by decide, by decide, by decide⟩

/-- C4, amended: for every client state and every query for which `FindUser`
resolves no record, `DeleteUser` returns no record together with the error
"user not found, so not deleted" and issues no deletion command: the only
command that can go through the execution channel is the one database read
that the lookup makes when the cache is Empty, and with a Populated cache the
client is left exactly as it was. -/
theorem C4_DeleteUser_not_found (env : Env σ) (c : Client σ) (user : User)
    (removeHome : Bool) (h : (FindUser env c user).1.1 = none) :
    (DeleteUser env c user removeHome).1 =
      (none, some (Error.new "user not found, so not deleted")) ∧
    (DeleteUser env c user removeHome).2 = (FindUser env c user).2 ∧
    (DeleteUser env c user removeHome).2.trace = c.trace ++ readEvents c ∧
    (c.UsersCache ≠ none → readEvents c = [] ∧ (DeleteUser env c user removeHome).2 = c) := by
  have hD := DeleteUser_not_found env c user removeHome h
  refine ⟨by rw [hD], by rw [hD], by rw [hD]; exact FindUser_trace env c user, ?_⟩
  intro hc
  obtain ⟨us, hus⟩ := Option.ne_none_iff_exists'.1 hc
  refine ⟨by simp [readEvents, hus], ?_⟩
  rw [hD, FindUser_populated env c user us hus]

/-- C4, amended, on a scripted channel with a Populated cache. -/
theorem C4_DeleteUser_not_found_witness :
    (DeleteUser scriptEnv (cachedClient [rootUser, bobUser] []) (nameQuery "alice") true).1 =
      (none, some (Error.new "user not found, so not deleted")) ∧
    (DeleteUser scriptEnv (cachedClient [rootUser, bobUser] []) (nameQuery "alice") true).2.trace =
      [] :=
  ⟨(C4_DeleteUser_not_found scriptEnv (cachedClient [rootUser, bobUser] []) (nameQuery "alice")
      true (by decide)).1,
   by decide⟩

/-! ## C5: the second of two consecutive reads -/

/-- C5, as stated, fails: on a client whose cache is already Populated, two
consecutive `GetUsers` calls both succeed and trigger no remote read at all,
not exactly one. -/
theorem C5_populated_client_zero_reads :
    (GetUsers scriptEnv (cachedClient [rootUser] [okReply dbRootBob])).1 =
      Except.ok [rootUser] ∧
    (GetUsers scriptEnv (GetUsers scriptEnv (cachedClient [rootUser] [okReply dbRootBob])).2).1 =
      Except.ok [rootUser] ∧
    (GetUsers scriptEnv
      (GetUsers scriptEnv (cachedClient [rootUser] [okReply dbRootBob])).2).2.trace = [] ∧
    (GetUsers scriptEnv
      (GetUsers scriptEnv (cachedClient [rootUser] [okReply dbRootBob])).2).2.host =
      [okReply dbRootBob] := by
  refine ⟨by decide, by decide, by decide, by decide⟩

/-- C5, amended: for every client, two consecutive `GetUsers` calls with no
intervening invalidation, the first of which succeeds, trigger at most one
remote read of the database in total: exactly one, made by the first call,
when the cache was Empty before it, and none when the cache was already
Populated; in both cases the second call issues no command, leaves the client
unchanged and returns the same sequence as the first. -/
theorem C5_second_GetUsers_cached (env : Env σ) (c : Client σ) (users : List User)
    (h : (GetUsers env c).1 = Except.ok users) :
    GetUsers env (GetUsers env c).2 = (Except.ok users, (GetUsers env c).2) ∧
    (GetUsers env (GetUsers env c).2).2.trace = c.trace ++ readEvents c ∧
    (c.UsersCache = none → readEvents c = [Event.exec "cat /etc/passwd"]) ∧
    (c.UsersCache ≠ none → readEvents c = []) := by
  have h1 := GetUsers_populated env (GetUsers env c).2 users (GetUsers_ok_cache env c users h)
  refine ⟨h1, by rw [h1]; exact GetUsers_trace env c, ?_, ?_⟩
  · intro hc
    simp [readEvents, hc, readCmd]
  · intro hc
    obtain ⟨us, hus⟩ := Option.ne_none_iff_exists'.1 hc
    simp [readEvents, hus]

/-- C5, amended, on a fresh client: the first call reads the database, the
second one is served from the cache. -/
theorem C5_second_GetUsers_cached_witness :
    GetUsers scriptEnv (GetUsers scriptEnv (freshClient [okReply dbRootBob])).2 =
      (Except.ok [rootUser, bobUser], (GetUsers scriptEnv (freshClient [okReply dbRootBob])).2) ∧
    (GetUsers scriptEnv (GetUsers scriptEnv (freshClient [okReply dbRootBob])).2).2.trace =
      [Event.exec "cat /etc/passwd"] :=
  ⟨(C5_second_GetUsers_cached scriptEnv (freshClient [okReply dbRootBob]) [rootUser, bobUser]
      (by decide)).1,
   by decide⟩

/-! ## C6: a failed read leaves the cache Empty -/

/-- C6: for every client whose cache is Empty, if the remote read reports an
execution error or the parser rejects the text the read returned, `GetUsers`
returns an error and no sequence (the channel's error wrapped with stdout and
stderr, or the parser's error as it is), and the cache is still Empty
afterwards. -/
theorem C6_GetUsers_read_failure (env : Env σ) (c : Client σ) (hc : c.UsersCache = none)
    (hf : (env.Execute c.host "cat /etc/passwd").1.err ≠ none ∨
      ∃ e, env.Parse (env.Execute c.host "cat /etc/passwd").1.so = Except.error e) :
    (∃ e, (GetUsers env c).1 = Except.error e) ∧
    (GetUsers env c).2.UsersCache = none ∧
    (∀ e, (env.Execute c.host "cat /etc/passwd").1.err = some e →
      (GetUsers env c).1 = Except.error (Error.wrap e
        ((env.Execute c.host "cat /etc/passwd").1.so ++
         (env.Execute c.host "cat /etc/passwd").1.se))) ∧
    (∀ e, (env.Execute c.host "cat /etc/passwd").1.err = none →
      env.Parse (env.Execute c.host "cat /etc/passwd").1.so = Except.error e →
      (GetUsers env c).1 = Except.error e) := by
  have hE := GetUsers_empty env c hc
  simp only [readCmd] at hE
  have key : ∃ e, (GetUsers env c).1 = Except.error e := by
    cases hx : (env.Execute c.host "cat /etc/passwd").1.err with
    | some e0 =>
      rw [hE]; simp only [hx]; exact ⟨_, rfl⟩
    | none =>
      rcases hf with hf | ⟨e, he⟩
      · exact absurd hx hf
      · rw [hE]; simp only [hx, he]; exact ⟨_, rfl⟩
  refine ⟨key, ?_, ?_, ?_⟩
  · obtain ⟨e, he⟩ := key
    exact (GetUsers_error_cache env c e he).2
  · intro e hx
    rw [hE]; simp only [hx]
  · intro e hx he
    rw [hE]; simp only [hx, he]

/-- C6 on a scripted channel: a database line with six fields is rejected by
the parser and the cache stays Empty. -/
theorem C6_GetUsers_read_failure_witness :
    (∃ e, (GetUsers scriptEnv (freshClient [okReply "root:x:0:0:root:/root\n"])).1 =
      Except.error e) ∧
    (GetUsers scriptEnv (freshClient [okReply "root:x:0:0:root:/root\n"])).2.UsersCache = none :=
  ⟨(C6_GetUsers_read_failure scriptEnv (freshClient [okReply "root:x:0:0:root:/root\n"]) rfl
      (Or.inr ⟨Error.new "unexpected number of fields: root:x:0:0:root:/root", by decide⟩)).1,
   (C6_GetUsers_read_failure scriptEnv (freshClient [okReply "root:x:0:0:root:/root\n"]) rfl
      (Or.inr ⟨Error.new "unexpected number of fields: root:x:0:0:root:/root", by decide⟩)).2.1⟩

theorem afterCommand_readEvents (env : Env σ) (c : Client σ) (q : User) (cmd : String) :
    readEvents (afterCommand env c q cmd) = [Event.exec "cat /etc/passwd"] := by
  simp [readEvents, afterCommand_cache, readCmd]

/-- The trace once the verification lookup has run. -/
theorem verify_trace (env : Env σ) (c : Client σ) (q : User) (cmd : String) :
    (FindUser env (afterCommand env c q cmd) q).2.trace =
      c.trace ++ readEvents c ++ [Event.exec cmd, Event.exec "cat /etc/passwd"] := by
  rw [FindUser_trace, afterCommand_trace, afterCommand_readEvents]
  simp

/-! ## C7: adding a new user -/

/-- C7, as stated, fails: the desired user `bob` with uid 1001 is not resolved
before the call, the creation command succeeds, and the reloaded database holds
uid 1001 under the name `robert`; the verification of `AddUser` accepts that
record (it matches by UID), the call returns without error, and the subsequent
`GetUserByName "bob"` finds nothing. -/
theorem C7_added_user_not_found_by_name :
    (FindUser scriptEnv (freshClient [okReply dbRoot, okReply "", okReply dbRootRobert])
      (query "bob" "1001")).1.1 = none ∧
    (AddUser scriptEnv (freshClient [okReply dbRoot, okReply "", okReply dbRootRobert])
      (query "bob" "1001") false).1 = (some robertUser, none) ∧
    (GetUserByName scriptEnv
      (AddUser scriptEnv (freshClient [okReply dbRoot, okReply "", okReply dbRootRobert])
        (query "bob" "1001") false).2 "bob").1 = (none, none) := by
  refine ⟨by decide, by decide, by decide⟩

/-- C7, amended: for every client and every desired user with non-empty Name
that `FindUser` does not resolve before the call, whenever
`AddUser user false` returns without error it has issued exactly one
account-creation command, the text `user.UserAdd()`, followed by one reload of
the database; it returns the first record of the reloaded sequence that matches
the user by UID or by Name, a repeated `FindUser user` returns that same record
from the cache, and a subsequent `GetUserByName user.Name` returns a record
whose Name equals `user.Name` provided the returned record has that Name (it
may have matched by UID only) and no record of the reloaded sequence has an
empty UID. -/
theorem C7_AddUser_new (env : Env σ) (c : Client σ) (user : User)
    (hn : user.Name ≠ "") (h0 : (FindUser env c user).1.1 = none)
    (hok : (AddUser env c user false).1.2 = none) :
    ∃ r users, (AddUser env c user false).1 = (some r, none) ∧
      (AddUser env c user false).2.trace =
        c.trace ++ readEvents c ++
          [Event.exec (env.UserAdd user), Event.exec "cat /etc/passwd"] ∧
      (AddUser env c user false).2.UsersCache = some users ∧
      IsFirst (codeMatch user) users r ∧
      FindUser env (AddUser env c user false).2 user =
        ((some r, none), (AddUser env c user false).2) ∧
      (r.Name = user.Name → (∀ x ∈ users, x.UID ≠ "") →
        ∃ r1, GetUserByName env (AddUser env c user false).2 user.Name =
          ((some r1, none), (AddUser env c user false).2) ∧ r1.Name = user.Name) := by
  cases hx : (Execute env (FindUser env c user).2 (env.UserAdd user)).1.err with
  | some err =>
    rw [AddUser_exec_failed env c user false err hn h0 hx] at hok
    simp at hok
  | none =>
    have hA := AddUser_exec_ok env c user false hn h0 hx
    cases hv : (FindUser env (afterCommand env c user (env.UserAdd user)) user).1.1 with
    | none =>
      rw [hA] at hok
      simp [hv] at hok
    | some r =>
      simp only [hv] at hA
      have hA2 : AddUser env c user false =
          ((some r, none), (FindUser env (afterCommand env c user (env.UserAdd user)) user).2) := by
        rw [hA]; simp
      obtain ⟨users, _, hcache, hloop⟩ := FindUser_some env _ user r hv
      refine ⟨r, users, by rw [hA2], ?_, by rw [hA2]; exact hcache,
        (loop_eq_some user users r).1 hloop, ?_, ?_⟩
      · rw [hA2]; exact verify_trace env c user (env.UserAdd user)
      · rw [hA2]
        simp only []
        rw [FindUser_populated env _ user users hcache, hloop]
      · intro hname huid
        rw [hA2]
        simp only []
        unfold GetUserByName
        rw [FindUser_populated env _ _ users hcache]
        cases hl : FindUser.loop
            { Name := user.Name, UID := "", GID := "", Comment := "", Home := "", Shell := "" }
            users with
        | none =>
          have := (loop_eq_none _ users).1 hl r (loop_some_mem hloop).1
          exact absurd (Or.inr hname) this
        | some r1 =>
          refine ⟨r1, rfl, ?_⟩
          obtain ⟨hmem, hmatch⟩ := loop_some_mem hl
          rcases hmatch with h | h
          · exact absurd h (huid r1 hmem)
          · exact h

/-- C7, amended, on a scripted channel: `bob` is created and then found by
name without any further command. -/
theorem C7_AddUser_new_witness :
    ∃ r users,
      (AddUser scriptEnv (freshClient [okReply dbRoot, okReply "", okReply dbRootBob])
        (nameQuery "bob") false).1 = (some r, none) ∧
      (AddUser scriptEnv (freshClient [okReply dbRoot, okReply "", okReply dbRootBob])
        (nameQuery "bob") false).2.trace =
        (freshClient [okReply dbRoot, okReply "", okReply dbRootBob]).trace ++
          readEvents (freshClient [okReply dbRoot, okReply "", okReply dbRootBob]) ++
          [Event.exec (scriptEnv.UserAdd (nameQuery "bob")), Event.exec "cat /etc/passwd"] ∧
      (AddUser scriptEnv (freshClient [okReply dbRoot, okReply "", okReply dbRootBob])
        (nameQuery "bob") false).2.UsersCache = some users ∧
      IsFirst (codeMatch (nameQuery "bob")) users r ∧
      FindUser scriptEnv
        (AddUser scriptEnv (freshClient [okReply dbRoot, okReply "", okReply dbRootBob])
          (nameQuery "bob") false).2 (nameQuery "bob") =
        ((some r, none),
         (AddUser scriptEnv (freshClient [okReply dbRoot, okReply "", okReply dbRootBob])
          (nameQuery "bob") false).2) ∧
      (r.Name = (nameQuery "bob").Name → (∀ x ∈ users, x.UID ≠ "") →
        ∃ r1, GetUserByName scriptEnv
          (AddUser scriptEnv (freshClient [okReply dbRoot, okReply "", okReply dbRootBob])
            (nameQuery "bob") false).2 (nameQuery "bob").Name =
          ((some r1, none),
           (AddUser scriptEnv (freshClient [okReply dbRoot, okReply "", okReply dbRootBob])
            (nameQuery "bob") false).2) ∧ r1.Name = (nameQuery "bob").Name) :=
  C7_AddUser_new scriptEnv (freshClient [okReply dbRoot, okReply "", okReply dbRootBob])
    (nameQuery "bob") (by decide) (by decide) (by decide)

/-! ## C8: deleting an existing user -/

/-- C8, as stated, fails: the deletion command succeeds, the verification
read fails, `FindUser` turns that failure into "no match", and `DeleteUser`
returns without error with the cache Empty; the immediately following
`FindUser` reads the database again and still resolves the account. -/
theorem C8_unverified_delete_still_found :
    (FindUser scriptEnv
      (freshClient [okReply dbRootBob, okReply "", failReply "connection reset",
        okReply dbRootBob]) (nameQuery "bob")).1.1 = some bobUser ∧
    (DeleteUser scriptEnv
      (freshClient [okReply dbRootBob, okReply "", failReply "connection reset",
        okReply dbRootBob]) (nameQuery "bob") false).1 = (some bobUser, none) ∧
    (DeleteUser scriptEnv
      (freshClient [okReply dbRootBob, okReply "", failReply "connection reset",
        okReply dbRootBob]) (nameQuery "bob") false).2.trace =
      [Event.exec "cat /etc/passwd", Event.exec "userdel bob", Event.exec "cat /etc/passwd"] ∧
    (FindUser scriptEnv
      (DeleteUser scriptEnv
        (freshClient [okReply dbRootBob, okReply "", failReply "connection reset",
          okReply dbRootBob]) (nameQuery "bob") false).2 (nameQuery "bob")).1 =
      (some bobUser, none) := by
  refine ⟨by decide, by decide, by decide, by decide⟩

/-- A read from an Empty cache that succeeds returns the reloaded sequence. -/
theorem GetUsers_of_reload (env : Env σ) (c : Client σ) (users : List User)
    (hc : c.UsersCache = none) (hr : reload env c.host = some users) :
    (GetUsers env c).1 = Except.ok users := by
  have hcache := GetUsers_empty_cache env c hc
  rw [hr] at hcache
  cases hG : (GetUsers env c).1 with
  | error err =>
    have := (GetUsers_error_cache env c err hG).2
    rw [this] at hcache
    cases hcache
  | ok us =>
    have := GetUsers_ok_cache env c us hG
    rw [this] at hcache
    cases hcache
    rfl

/-- A read from an Empty cache that fails makes `FindUser` resolve nothing. -/
theorem FindUser_of_reload_failed (env : Env σ) (c : Client σ) (q : User)
    (hc : c.UsersCache = none) (hr : reload env c.host = none) :
    (FindUser env c q).1.1 = none := by
  cases hG : (GetUsers env c).1 with
  | error err => rw [FindUser_of_error env c q err hG]
  | ok us =>
    have h1 := GetUsers_ok_cache env c us hG
    rw [GetUsers_empty_cache env c hc, hr] at h1
    cases h1

/-- C8, amended: for every client and every query that `FindUser` resolves to
a record `u` with non-empty Name:
(a) whenever `DeleteUser` returns without error it returns `u` and has issued
exactly one account-deletion command, the text `u.UserDelete(removeHome)`,
followed by one reload of the database; and if that reload succeeded, so that
the cache is Populated when `DeleteUser` returns, no cached record matches the
query and an immediately following `FindUser` with the same query returns no
match without issuing a command;
(b) when the deletion command succeeds and the reload fails, the soft-fail of
`FindUser` makes `DeleteUser` return `u` without error all the same, with the
cache Empty;
(c) whenever the cache is Empty when `DeleteUser` returns, the immediately
following `FindUser` reads the database again: it issues the read command, its
cache is what that read yields, and when that read succeeds its result is the
first matching record of the sequence just read, so the account can be
resolved again. -/
theorem C8_DeleteUser_verified (env : Env σ) (c : Client σ) (user u : User)
    (removeHome : Bool) (h0 : (FindUser env c user).1.1 = some u) (hn : u.Name ≠ "") :
    ((DeleteUser env c user removeHome).1.2 = none →
      (DeleteUser env c user removeHome).1 = (some u, none) ∧
      (DeleteUser env c user removeHome).2.trace =
        c.trace ++ readEvents c ++
          [Event.exec (env.UserDelete u removeHome), Event.exec "cat /etc/passwd"] ∧
      (∀ users, (DeleteUser env c user removeHome).2.UsersCache = some users →
        (∀ x ∈ users, ¬ codeMatch user x) ∧
        FindUser env (DeleteUser env c user removeHome).2 user =
          ((none, none), (DeleteUser env c user removeHome).2))) ∧
    ((env.Execute (FindUser env c user).2.host (env.UserDelete u removeHome)).1.err = none →
      reload env (env.Execute (FindUser env c user).2.host (env.UserDelete u removeHome)).2 =
        none →
      (DeleteUser env c user removeHome).1 = (some u, none) ∧
      (DeleteUser env c user removeHome).2.UsersCache = none ∧
      (DeleteUser env c user removeHome).2.trace =
        c.trace ++ readEvents c ++
          [Event.exec (env.UserDelete u removeHome), Event.exec "cat /etc/passwd"]) ∧
    ((DeleteUser env c user removeHome).2.UsersCache = none →
      (FindUser env (DeleteUser env c user removeHome).2 user).2.trace =
        (DeleteUser env c user removeHome).2.trace ++ [Event.exec "cat /etc/passwd"] ∧
      (FindUser env (DeleteUser env c user removeHome).2 user).2.UsersCache =
        reload env (DeleteUser env c user removeHome).2.host ∧
      (∀ users, reload env (DeleteUser env c user removeHome).2.host = some users →
        (FindUser env (DeleteUser env c user removeHome).2 user).1 =
          (FindUser.loop user users, none))) := by
  refine ⟨?_, ?_, ?_⟩
  · intro hok
    cases hx : (Execute env (FindUser env c user).2 (env.UserDelete u removeHome)).1.err with
    | some err =>
      rw [DeleteUser_exec_failed env c user u removeHome err h0 hn hx] at hok
      simp at hok
    | none =>
      have hD := DeleteUser_exec_ok env c user u removeHome h0 hn hx
      cases hv : (FindUser env (afterCommand env c user (env.UserDelete u removeHome))
          user).1.1 with
      | some u2 =>
        rw [hD] at hok
        simp [hv] at hok
      | none =>
        simp only [hv] at hD
        refine ⟨by rw [hD], ?_, ?_⟩
        · rw [hD]; exact verify_trace env c user (env.UserDelete u removeHome)
        · intro users hcache
          rw [hD] at hcache ⊢
          simp only [] at hcache ⊢
          have hl := FindUser_none_cached env _ user users hv hcache
          refine ⟨(loop_eq_none user users).1 hl, ?_⟩
          rw [FindUser_populated env _ user users hcache, hl]
  · intro hx hr
    have hx2 : (Execute env (FindUser env c user).2 (env.UserDelete u removeHome)).1.err =
        none := hx
    have hD := DeleteUser_exec_ok env c user u removeHome h0 hn hx2
    have hr2 : reload env (afterCommand env c user (env.UserDelete u removeHome)).host =
        none := hr
    have hv := FindUser_of_reload_failed env
      (afterCommand env c user (env.UserDelete u removeHome)) user
      (afterCommand_cache env c user _) hr2
    simp only [hv] at hD
    refine ⟨by rw [hD], ?_, ?_⟩
    · rw [hD]
      simp only []
      rw [afterCommand_reload]
      exact hr
    · rw [hD]; exact verify_trace env c user (env.UserDelete u removeHome)
  · intro hcache
    refine ⟨?_, ?_, ?_⟩
    · rw [FindUser_trace]
      simp [readEvents, hcache, readCmd]
    · rw [FindUser_cache]
      exact GetUsers_empty_cache env _ hcache
    · intro users hr
      rw [FindUser_of_ok env _ user users (GetUsers_of_reload env _ users hcache hr)]

/-- C8, amended, on scripted channels: when the reload shows the database
without `bob`, the next lookup finds nothing; when the reload fails,
`DeleteUser` returns `bob` without error and leaves the cache Empty. -/
theorem C8_DeleteUser_verified_witness :
    ((DeleteUser scriptEnv (freshClient [okReply dbRootBob, okReply "", okReply dbRoot])
        (nameQuery "bob") true).1 = (some bobUser, none) ∧
      FindUser scriptEnv
        (DeleteUser scriptEnv (freshClient [okReply dbRootBob, okReply "", okReply dbRoot])
          (nameQuery "bob") true).2 (nameQuery "bob") =
        ((none, none),
         (DeleteUser scriptEnv (freshClient [okReply dbRootBob, okReply "", okReply dbRoot])
          (nameQuery "bob") true).2)) ∧
    ((DeleteUser scriptEnv
        (freshClient [okReply dbRootBob, okReply "", failReply "connection reset"])
        (nameQuery "bob") true).1 = (some bobUser, none) ∧
      (DeleteUser scriptEnv
        (freshClient [okReply dbRootBob, okReply "", failReply "connection reset"])
        (nameQuery "bob") true).2.UsersCache = none) :=
  ⟨⟨((C8_DeleteUser_verified scriptEnv
        (freshClient [okReply dbRootBob, okReply "", okReply dbRoot]) (nameQuery "bob") bobUser
        true (by decide) (by decide)).1 (by decide)).1,
    (((C8_DeleteUser_verified scriptEnv
        (freshClient [okReply dbRootBob, okReply "", okReply dbRoot]) (nameQuery "bob") bobUser
        true (by decide) (by decide)).1 (by decide)).2.2 [rootUser] (by decide)).2⟩,
   ⟨((C8_DeleteUser_verified scriptEnv
        (freshClient [okReply dbRootBob, okReply "", failReply "connection reset"])
        (nameQuery "bob") bobUser true (by decide) (by decide)).2.1 (by decide) (by decide)).1,
    ((C8_DeleteUser_verified scriptEnv
        (freshClient [okReply dbRootBob, okReply "", failReply "connection reset"])
        (nameQuery "bob") bobUser true (by decide) (by decide)).2.1 (by decide)
        (by decide)).2.1⟩⟩

/-! ## C9: delete verification failure -/

/-- C9: for every client and query, if the deletion command (issued for the
record `u` that the first lookup resolved, whose Name is non-empty) succeeds
but the original query still resolves to some record `u2` after the cache has
been cleared and reloaded, `DeleteUser` returns the error
"failed to delete user" together with `u`, the record resolved before the
deletion command was issued, whatever the post-delete record `u2` is. -/
theorem C9_DeleteUser_verification_failed (env : Env σ) (c : Client σ) (user u u2 : User)
    (removeHome : Bool) (h0 : (FindUser env c user).1.1 = some u) (hn : u.Name ≠ "")
    (hx : (Execute env (FindUser env c user).2 (env.UserDelete u removeHome)).1.err = none)
    (hv : (FindUser env (ClearUserCache
            (Execute env (FindUser env c user).2 (env.UserDelete u removeHome)).2).2
          user).1.1 = some u2) :
    (DeleteUser env c user removeHome).1 =
      (some u, some (Error.new "failed to delete user")) := by
  have hD := DeleteUser_exec_ok env c user u removeHome h0 hn hx
  have hv2 : (FindUser env (afterCommand env c user (env.UserDelete u removeHome)) user).1.1 =
      some u2 := hv
  rw [hD]
  simp only [hv2]

/-- C9 on a scripted channel: after the deletion command the name `bob` still
resolves, to a record with another uid; the record returned with the error is
the one found before the command. -/
theorem C9_DeleteUser_verification_failed_witness :
    (FindUser scriptEnv (ClearUserCache
        (Execute scriptEnv
          (FindUser scriptEnv (freshClient [okReply dbRootBob, okReply "", okReply dbRootBob2])
            (nameQuery "bob")).2
          (scriptEnv.UserDelete bobUser false)).2).2 (nameQuery "bob")).1.1 = some bob2User ∧
    (DeleteUser scriptEnv (freshClient [okReply dbRootBob, okReply "", okReply dbRootBob2])
      (nameQuery "bob") false).1 = (some bobUser, some (Error.new "failed to delete user")) :=
  ⟨by decide,
   C9_DeleteUser_verification_failed scriptEnv
     (freshClient [okReply dbRootBob, okReply "", okReply dbRootBob2]) (nameQuery "bob")
     bobUser bob2User false (by decide) (by decide) (by decide) (by decide)⟩

/-! ## C10: add verification failure -/

/-- C10: for every client and every desired user with non-empty Name that is
not resolved before the call, if the creation command exits successfully but
the user is still not resolved after the cache has been cleared and reloaded,
`AddUser` returns no record and the error "failed to add user", whatever the
create-home flag; the call has issued the creation command and the reload and
nothing else, so `CreateHome` and its helpers are never entered. -/
theorem C10_AddUser_verification_failed (env : Env σ) (c : Client σ) (user : User)
    (createHome : Bool) (hn : user.Name ≠ "") (h0 : (FindUser env c user).1.1 = none)
    (hx : (Execute env (FindUser env c user).2 (env.UserAdd user)).1.err = none)
    (hv : (FindUser env (ClearUserCache
            (Execute env (FindUser env c user).2 (env.UserAdd user)).2).2 user).1.1 = none) :
    (AddUser env c user createHome).1 = (none, some (Error.new "failed to add user")) ∧
    (AddUser env c user createHome).2.trace =
      c.trace ++ (readEvents c ++
        [Event.exec (env.UserAdd user), Event.exec "cat /etc/passwd"]) ∧
    (∀ e ∈ readEvents c ++ [Event.exec (env.UserAdd user), Event.exec "cat /etc/passwd"],
      ∀ u, e ≠ Event.createHome u ∧ e ≠ Event.createSSHDir u ∧ e ≠ Event.chownHomedir u) := by
  have hA := AddUser_exec_ok env c user createHome hn h0 hx
  have hv2 : (FindUser env (afterCommand env c user (env.UserAdd user)) user).1.1 = none := hv
  simp only [hv2] at hA
  refine ⟨by rw [hA], ?_, ?_⟩
  · rw [hA]
    simp only []
    rw [verify_trace env c user (env.UserAdd user), List.append_assoc]
  · intro e he u
    have : e = Event.exec "cat /etc/passwd" ∨ e = Event.exec (env.UserAdd user) := by
      cases hc : c.UsersCache with
      | none =>
        simp [readEvents, hc, readCmd] at he
        rcases he with h | h | h
        · exact Or.inl h
        · exact Or.inr h
        · exact Or.inl h
      | some us =>
        simp [readEvents, hc] at he
        rcases he with h | h
        · exact Or.inr h
        · exact Or.inl h
    rcases this with h | h <;> subst h <;> simp

/-- C10 on a scripted channel, with home creation requested: the creation
command succeeds without effect and `AddUser` reports the failure. -/
theorem C10_AddUser_verification_failed_witness :
    (AddUser scriptEnv (freshClient [okReply dbRoot, okReply "", okReply dbRoot])
      (nameQuery "bob") true).1 = (none, some (Error.new "failed to add user")) ∧
    (AddUser scriptEnv (freshClient [okReply dbRoot, okReply "", okReply dbRoot])
      (nameQuery "bob") true).2.trace =
      [Event.exec "cat /etc/passwd", Event.exec "useradd bob", Event.exec "cat /etc/passwd"] :=
  ⟨(C10_AddUser_verification_failed scriptEnv
      (freshClient [okReply dbRoot, okReply "", okReply dbRoot]) (nameQuery "bob") true
      (by decide) (by decide) (by decide) (by decide)).1,
   by decide⟩

/-! ## C11: an empty Name is rejected before any remote action -/

/-- C11: for every client state and every user whose Name is empty, `AddUser`
returns no record and the validation error "user name cannot be empty",
issues no command through the execution channel, and leaves the client, its
cache included, exactly as it was. -/
theorem C11_AddUser_empty_name (env : Env σ) (c : Client σ) (user : User) (createHome : Bool)
    (hn : user.Name = "") :
    (AddUser env c user createHome).1 = (none, some (Error.new "user name cannot be empty")) ∧
    (AddUser env c user createHome).2 = c ∧
    (AddUser env c user createHome).2.trace = c.trace ∧
    (AddUser env c user createHome).2.UsersCache = c.UsersCache := by
  have h : AddUser env c user createHome =
      ((none, some (Error.new "user name cannot be empty")), c) := by
    simp [AddUser, hn]
  rw [h]
  exact ⟨rfl, rfl, rfl, rfl⟩

/-- C11 on a scripted channel: a query with only a UID is rejected and the
script is left untouched. -/
theorem C11_AddUser_empty_name_witness :
    (AddUser scriptEnv (cachedClient [rootUser] [okReply ""]) (query "" "1001") true).1 =
      (none, some (Error.new "user name cannot be empty")) ∧
    (AddUser scriptEnv (cachedClient [rootUser] [okReply ""]) (query "" "1001") true).2 =
      cachedClient [rootUser] [okReply ""] :=
  ⟨(C11_AddUser_empty_name scriptEnv (cachedClient [rootUser] [okReply ""]) (query "" "1001")
      true (by decide)).1,
   (C11_AddUser_empty_name scriptEnv (cachedClient [rootUser] [okReply ""]) (query "" "1001")
      true (by decide)).2.1⟩

/-! ## C12: the home directory of `CreateHome` -/

/-- The explicit result of `CreateHome` for a named user, step by step. -/
theorem CreateHome_named (env : Env σ) (c : Client σ) (u : User) (hn : u.Name ≠ "") :
    CreateHome env c u =
      match (createSSHDir env { c with trace := c.trace ++ [Event.createHome u] }
              (homeOf u)).1 with
      | some err =>
        ((none, some err),
         (createSSHDir env { c with trace := c.trace ++ [Event.createHome u] } (homeOf u)).2)
      | none =>
        match (Execute env
                (createSSHDir env { c with trace := c.trace ++ [Event.createHome u] }
                  (homeOf u)).2 (copyCmd env u)).1.err with
        | some err =>
          ((none, some (Error.wrap err
              ((Execute env
                (createSSHDir env { c with trace := c.trace ++ [Event.createHome u] }
                  (homeOf u)).2 (copyCmd env u)).1.so ++
               (Execute env
                (createSSHDir env { c with trace := c.trace ++ [Event.createHome u] }
                  (homeOf u)).2 (copyCmd env u)).1.se))),
           (Execute env
              (createSSHDir env { c with trace := c.trace ++ [Event.createHome u] }
                (homeOf u)).2 (copyCmd env u)).2)
        | none =>
          match (chownHomedir env (Execute env
                  (createSSHDir env { c with trace := c.trace ++ [Event.createHome u] }
                    (homeOf u)).2 (copyCmd env u)).2 (homeOf u)).1 with
          | some err =>
            ((none, some err),
             (chownHomedir env (Execute env
                  (createSSHDir env { c with trace := c.trace ++ [Event.createHome u] }
                    (homeOf u)).2 (copyCmd env u)).2 (homeOf u)).2)
          | none =>
            ((some (homeOf u), none),
             (chownHomedir env (Execute env
                  (createSSHDir env { c with trace := c.trace ++ [Event.createHome u] }
                    (homeOf u)).2 (copyCmd env u)).2 (homeOf u)).2) := by
  unfold CreateHome
  simp only [hn, if_false]
  show (match createSSHDir env { c with trace := c.trace ++ [Event.createHome u] } (homeOf u) with
    | (some err, c1) => ((none, some err), c1)
    | (none, c1) =>
      match Execute env c1 (copyCmd env u) with
      | (⟨so, se, some err⟩, c2) => ((none, some (Error.wrap err (so ++ se))), c2)
      | (⟨_, _, none⟩, c2) =>
        match chownHomedir env c2 (homeOf u) with
        | (some err, c3) => ((none, some err), c3)
        | (none, c3) => ((some (homeOf u), none), c3)) = _
  rcases h1 : createSSHDir env { c with trace := c.trace ++ [Event.createHome u] } (homeOf u)
    with ⟨e1, c1⟩
  cases e1 with
  | some err => rfl
  | none =>
    simp only []
    rcases h2 : Execute env c1 (copyCmd env u) with ⟨⟨so, se, e2⟩, c2⟩
    cases e2 with
    | some err => rfl
    | none =>
      simp only []
      rcases h3 : chownHomedir env c2 (homeOf u) with ⟨e3, c3⟩
      cases e3 <;> rfl

/-- C12: for every user with non-empty Name, when all steps of `CreateHome`
succeed (it returns a nil error): with an empty Home the returned record has
Home equal to "/home/" followed by the Name and every other field equal to the
input's; with a non-empty Home the returned record equals the input; and in
both cases the call issues exactly one command through the execution channel,
"cp -rT /etc/skel " followed by the quoted form of the returned record's Home,
between the key-directory helper and the ownership helper, both of which are
called on the returned record. -/
theorem C12_CreateHome_home (env : Env σ) (c : Client σ) (u : User) (hn : u.Name ≠ "")
    (hok : (CreateHome env c u).1.2 = none) :
    (u.Home = "" →
      (CreateHome env c u).1.1 =
        some { Name := u.Name, UID := u.UID, GID := u.GID, Comment := u.Comment,
               Home := "/home/" ++ u.Name, Shell := u.Shell } ∧
      (CreateHome env c u).2.trace =
        c.trace ++ [Event.createHome u,
          Event.createSSHDir { u with Home := "/home/" ++ u.Name },
          Event.exec ("cp -rT /etc/skel " ++ env.Quote ("/home/" ++ u.Name)),
          Event.chownHomedir { u with Home := "/home/" ++ u.Name }]) ∧
    (u.Home ≠ "" →
      (CreateHome env c u).1.1 = some u ∧
      (CreateHome env c u).2.trace =
        c.trace ++ [Event.createHome u, Event.createSSHDir u,
          Event.exec ("cp -rT /etc/skel " ++ env.Quote u.Home), Event.chownHomedir u]) := by
  have key : (CreateHome env c u).1.1 = some (homeOf u) ∧
      (CreateHome env c u).2.trace =
        c.trace ++ [Event.createHome u, Event.createSSHDir (homeOf u),
          Event.exec (copyCmd env u), Event.chownHomedir (homeOf u)] := by
    have hC := CreateHome_named env c u hn
    rw [hC] at hok ⊢
    cases h1 : (createSSHDir env { c with trace := c.trace ++ [Event.createHome u] }
        (homeOf u)).1 with
    | some err => simp [h1] at hok
    | none =>
      simp only [h1] at hok ⊢
      cases h2 : (Execute env
          (createSSHDir env { c with trace := c.trace ++ [Event.createHome u] }
            (homeOf u)).2 (copyCmd env u)).1.err with
      | some err => simp [h2] at hok
      | none =>
        simp only [h2] at hok ⊢
        cases h3 : (chownHomedir env (Execute env
            (createSSHDir env { c with trace := c.trace ++ [Event.createHome u] }
              (homeOf u)).2 (copyCmd env u)).2 (homeOf u)).1 with
        | some err => simp [h3] at hok
        | none => simp [chownHomedir, Execute, createSSHDir]
  constructor
  · intro hh
    have e1 : homeOf u = { u with Home := "/home/" ++ u.Name } := by simp [homeOf, hh]
    have e2 : copyCmd env u = "cp -rT /etc/skel " ++ env.Quote ("/home/" ++ u.Name) := by
      simp [copyCmd, e1]
    rw [e1, e2] at key
    exact key
  · intro hh
    have e1 : homeOf u = u := by simp [homeOf, hh]
    have e2 : copyCmd env u = "cp -rT /etc/skel " ++ env.Quote u.Home := by
      simp [copyCmd, e1]
    rw [e1, e2] at key
    exact key

/-- C12 on a scripted channel: the home of `alice` defaults to `/home/alice`
and the copy targets that path. -/
theorem C12_CreateHome_home_witness :
    (CreateHome scriptEnv (freshClient [okReply ""]) (nameQuery "alice")).1.1 =
      some { Name := "alice", UID := "", GID := "", Comment := "",
             Home := "/home/" ++ "alice", Shell := "" } ∧
    (CreateHome scriptEnv (freshClient [okReply ""]) (nameQuery "alice")).2.trace =
      (freshClient [okReply ""]).trace ++ [Event.createHome (nameQuery "alice"),
        Event.createSSHDir { nameQuery "alice" with Home := "/home/" ++ "alice" },
        Event.exec ("cp -rT /etc/skel " ++ scriptEnv.Quote ("/home/" ++ "alice")),
        Event.chownHomedir { nameQuery "alice" with Home := "/home/" ++ "alice" }] :=
  (C12_CreateHome_home scriptEnv (freshClient [okReply ""]) (nameQuery "alice") (by decide)
    (by decide)).1 (by decide)

/-! ## C13: lookups never report an error -/

/-- C13: `FindUser` never returns a non-nil error: for every client and every
query the error result is nil; and when `GetUsers` fails, the record result is
nil too, the failure is logged, and the cache, which was Empty, stays Empty. -/
theorem C13_FindUser_soft_fail (env : Env σ) (c : Client σ) (q : User) :
    (FindUser env c q).1.2 = none ∧
    (∀ err, (GetUsers env c).1 = Except.error err →
      (FindUser env c q).1 = (none, none) ∧
      c.UsersCache = none ∧
      (FindUser env c q).2.UsersCache = none ∧
      (FindUser env c q).2.logged = c.logged ++ [err]) := by
  refine ⟨FindUser_err env c q, ?_⟩
  intro err h
  have hc := GetUsers_error_cache env c err h
  have hF := FindUser_of_error env c q err h
  refine ⟨by rw [hF], hc.1, by rw [hF]; exact hc.2, ?_⟩
  rw [hF]
  simp only []
  have hE := GetUsers_empty env c hc.1
  have hl : (GetUsers env c).2.logged = c.logged := by
    rw [hE]
    cases (env.Execute c.host readCmd).1.err with
    | some e => rfl
    | none =>
      simp only []
      cases env.Parse (env.Execute c.host readCmd).1.so <;> rfl
  rw [hl]

/-- C13 on a scripted channel whose read fails. -/
theorem C13_FindUser_soft_fail_witness :
    (FindUser scriptEnv (freshClient [failReply "connection reset"]) (nameQuery "bob")).1 =
      (none, none) ∧
    (FindUser scriptEnv (freshClient [failReply "connection reset"])
      (nameQuery "bob")).2.UsersCache = none :=
  ⟨((C13_FindUser_soft_fail scriptEnv (freshClient [failReply "connection reset"])
      (nameQuery "bob")).2
      (Error.wrap (Error.new "exit status 1") "connection reset") (by decide)).1,
   ((C13_FindUser_soft_fail scriptEnv (freshClient [failReply "connection reset"])
      (nameQuery "bob")).2
      (Error.wrap (Error.new "exit status 1") "connection reset") (by decide)).2.2.1⟩

/-! ## C14: a failed creation command -/

/-- C14: for every client and every desired user with non-empty Name that is
not resolved before the call, if the execution channel reports an error for
the account-creation command, `AddUser` returns no record and that error
wrapped with the concatenation of stdout and stderr as its message, and the
creation command is the last thing the call does: the trace ends with it, so
there is no verification read, no home creation and no retry, and the cache is
the one the first lookup left. -/
theorem C14_AddUser_command_failed (env : Env σ) (c : Client σ) (user : User)
    (createHome : Bool) (err : Error) (hn : user.Name ≠ "")
    (h0 : (FindUser env c user).1.1 = none)
    (hx : (env.Execute (FindUser env c user).2.host (env.UserAdd user)).1.err = some err) :
    (AddUser env c user createHome).1 =
      (none, some (Error.wrap err
        ((env.Execute (FindUser env c user).2.host (env.UserAdd user)).1.so ++
         (env.Execute (FindUser env c user).2.host (env.UserAdd user)).1.se))) ∧
    (AddUser env c user createHome).2.trace =
      c.trace ++ readEvents c ++ [Event.exec (env.UserAdd user)] ∧
    (AddUser env c user createHome).2.host =
      (env.Execute (FindUser env c user).2.host (env.UserAdd user)).2 ∧
    (AddUser env c user createHome).2.UsersCache = (FindUser env c user).2.UsersCache := by
  have hA := AddUser_exec_failed env c user createHome err hn h0 hx
  rw [hA]
  refine ⟨rfl, ?_, rfl, rfl⟩
  rw [Execute_trace, FindUser_trace]

/-- C14 on a scripted channel: the creation command fails and nothing follows
it, although home creation was requested and the script has more replies. -/
theorem C14_AddUser_command_failed_witness :
    (AddUser scriptEnv
      (freshClient [okReply dbRoot, failReply "useradd: cannot lock /etc/passwd",
        okReply dbRootBob, okReply ""]) (nameQuery "bob") true).1 =
      (none, some (Error.wrap (Error.new "exit status 1")
        ("" ++ "useradd: cannot lock /etc/passwd"))) ∧
    (AddUser scriptEnv
      (freshClient [okReply dbRoot, failReply "useradd: cannot lock /etc/passwd",
        okReply dbRootBob, okReply ""]) (nameQuery "bob") true).2.trace =
      [Event.exec "cat /etc/passwd", Event.exec "useradd bob"] :=
  ⟨(C14_AddUser_command_failed scriptEnv
      (freshClient [okReply dbRoot, failReply "useradd: cannot lock /etc/passwd",
        okReply dbRootBob, okReply ""]) (nameQuery "bob") true (Error.new "exit status 1")
      (by decide) (by decide) (by decide)).1,
   by decide⟩

/-! ## C15: clearing the cache -/

/-- C15: for every client state, Empty or Populated, `ClearUserCache` returns a
nil error, leaves the cache Empty and changes nothing else; the next
`GetUsers` call then sends the database read through the execution channel and
its result and cache are what that fresh read yields, whatever sequence was
cached before. -/
theorem C15_ClearUserCache_forces_reload (env : Env σ) (c : Client σ) :
    (ClearUserCache c).1 = none ∧
    (ClearUserCache c).2.UsersCache = none ∧
    (ClearUserCache c).2.host = c.host ∧
    (ClearUserCache c).2.trace = c.trace ∧
    (GetUsers env (ClearUserCache c).2).2.trace = c.trace ++ [Event.exec "cat /etc/passwd"] ∧
    (GetUsers env (ClearUserCache c).2).2.UsersCache = reload env c.host ∧
    (∀ users, (GetUsers env (ClearUserCache c).2).1 = Except.ok users →
      reload env c.host = some users) := by
  refine ⟨rfl, rfl, rfl, rfl, ?_, ?_, ?_⟩
  · rw [GetUsers_trace]
    simp [readEvents, ClearUserCache, readCmd]
  · exact GetUsers_empty_cache env (ClearUserCache c).2 rfl
  · intro users h
    have h1 := GetUsers_empty_cache env (ClearUserCache c).2 rfl
    rw [GetUsers_ok_cache env _ users h] at h1
    exact h1.symm

/-! ## C16: a match on one field is enough -/

/-- C16: for every sequence `users` that `GetUsers` returns and every query
with both UID and Name non-empty, if some record equals the query on exactly
one of the two fields (the UID matches and the Name differs, or the Name
matches and the UID differs), `FindUser` still returns a record, with a nil
error: it does not require both fields to match. -/
theorem C16_FindUser_or_match (env : Env σ) (c : Client σ) (q : User) (users : List User)
    (r : User) (hG : (GetUsers env c).1 = Except.ok users)
    (_hu : q.UID ≠ "") (_hname : q.Name ≠ "") (hr : r ∈ users)
    (hone : (r.UID = q.UID ∧ r.Name ≠ q.Name) ∨ (r.Name = q.Name ∧ r.UID ≠ q.UID)) :
    ∃ r0, (FindUser env c q).1 = (some r0, none) ∧ r0 ∈ users ∧
      (r0.UID = q.UID ∨ r0.Name = q.Name) := by
  rw [FindUser_of_ok env c q users hG]
  cases hl : FindUser.loop q users with
  | none =>
    have hm : codeMatch q r := by
      rcases hone with h | h
      · exact Or.inl h.1
      · exact Or.inr h.1
    exact absurd hm ((loop_eq_none q users).1 hl r hr)
  | some r0 =>
    exact ⟨r0, rfl, (loop_some_mem hl).1, (loop_some_mem hl).2⟩

/-- C16 on a scripted channel: the query carries the uid of `bob` and a name
nobody has, and `bob` is returned. -/
theorem C16_FindUser_or_match_witness :
    ∃ r0, (FindUser scriptEnv (freshClient [okReply dbRootBob]) (query "carol" "1001")).1 =
        (some r0, none) ∧ r0 ∈ [rootUser, bobUser] ∧
      (r0.UID = (query "carol" "1001").UID ∨ r0.Name = (query "carol" "1001").Name) :=
  C16_FindUser_or_match scriptEnv (freshClient [okReply dbRootBob]) (query "carol" "1001")
    [rootUser, bobUser] bobUser (by decide) (by decide) (by decide) (by decide) (by decide)

/-! ## C18: the unguarded comparison on databases without empty fields -/

theorem loop_eq_specFind (q : User) (users : List User)
    (hne : ∀ x ∈ users, x.Name ≠ "" ∧ x.UID ≠ "") :
    FindUser.loop q users = specFind q users := by
  induction users with
  | nil => rfl
  | cons u rest ih =>
    have hu := hne u (by simp)
    have hiff : (u.UID = q.UID ∨ u.Name = q.Name) ↔ specMatch q u := by
      unfold specMatch
      constructor
      · rintro (h | h)
        · exact Or.inl ⟨fun h0 => hu.2 (h.trans h0), h.symm⟩
        · exact Or.inr ⟨fun h0 => hu.1 (h.trans h0), h.symm⟩
      · rintro (h | h)
        · exact Or.inl h.2.symm
        · exact Or.inr h.2.symm
    have ih2 := ih (fun x hx => hne x (by simp [hx]))
    by_cases hm : specMatch q u
    · simp [FindUser.loop, specFind, hm, hiff.2 hm]
    · have hm2 : ¬ (u.UID = q.UID ∨ u.Name = q.Name) := fun h => hm (hiff.1 h)
      simp only [FindUser.loop, specFind, hm, hm2, if_false, ih2]

theorem loop_nameQuery (n : String) (users : List User) (hne : ∀ x ∈ users, x.UID ≠ "") :
    FindUser.loop (nameQuery n) users = users.find? (fun r => decide (r.Name = n)) := by
  induction users with
  | nil => rfl
  | cons u rest ih =>
    have hu := hne u (by simp)
    have ih2 := ih (fun x hx => hne x (by simp [hx]))
    by_cases hm : u.Name = n
    · simp [FindUser.loop, nameQuery, hm]
    · simp [FindUser.loop, nameQuery, hm, hu, List.find?]
      simpa [nameQuery] using ih2

theorem loop_uidQuery (i : String) (users : List User) (hne : ∀ x ∈ users, x.Name ≠ "") :
    FindUser.loop (uidQuery i) users = users.find? (fun r => decide (r.UID = i)) := by
  induction users with
  | nil => rfl
  | cons u rest ih =>
    have hu := hne u (by simp)
    have ih2 := ih (fun x hx => hne x (by simp [hx]))
    by_cases hm : u.UID = i
    · simp [FindUser.loop, uidQuery, hm]
    · simp [FindUser.loop, uidQuery, hm, hu, List.find?]
      simpa [uidQuery] using ih2

/-- C18: on every sequence `users` that `GetUsers` returns and in which every
record has a non-empty Name and a non-empty UID, the unguarded comparison of
`FindUser` selects, for every query, the same result as the guarded rule of
the specification (`specFind`); consequently `GetUserByName n` returns the
first record whose Name is `n` and `GetUserByUid i` returns the first record
whose UID is `i` (for every `n` and `i`, the non-empty ones in particular),
each with a nil error. -/
theorem C18_unguarded_agrees_with_guarded (env : Env σ) (c : Client σ) (users : List User)
    (hG : (GetUsers env c).1 = Except.ok users)
    (hne : ∀ x ∈ users, x.Name ≠ "" ∧ x.UID ≠ "") :
    (∀ q, (FindUser env c q).1 = (specFind q users, none)) ∧
    (∀ n, (GetUserByName env c n).1 = (users.find? (fun r => decide (r.Name = n)), none)) ∧
    (∀ i, (GetUserByUid env c i).1 = (users.find? (fun r => decide (r.UID = i)), none)) := by
  refine ⟨?_, ?_, ?_⟩
  · intro q
    rw [FindUser_of_ok env c q users hG, loop_eq_specFind q users hne]
  · intro n
    have h := loop_nameQuery n users (fun x hx => (hne x hx).2)
    unfold GetUserByName
    rw [FindUser_of_ok env c _ users hG]
    exact congrArg (fun o => (o, (none : Option Error))) h
  · intro i
    have h := loop_uidQuery i users (fun x hx => (hne x hx).1)
    unfold GetUserByUid
    rw [FindUser_of_ok env c _ users hG]
    exact congrArg (fun o => (o, (none : Option Error))) h

/-- C18 on the two-account database: the lookup by the name `bob` agrees with
the guarded rule. -/
theorem C18_unguarded_agrees_with_guarded_witness :
    (FindUser scriptEnv (freshClient [okReply dbRootBob]) (nameQuery "bob")).1 =
      (specFind (nameQuery "bob") [rootUser, bobUser], none) ∧
    specFind (nameQuery "bob") [rootUser, bobUser] = some bobUser :=
  ⟨(C18_unguarded_agrees_with_guarded scriptEnv (freshClient [okReply dbRootBob])
      [rootUser, bobUser] (by decide) (by decide)).1 (nameQuery "bob"),
   by decide⟩

/-! ## C20: `AddUser` when the database cannot be read -/

/-- A read that fails, in execution or in parsing, makes `GetUsers` fail. -/
theorem GetUsers_read_failed (env : Env σ) (c : Client σ) (hc : c.UsersCache = none)
    (hf : (env.Execute c.host "cat /etc/passwd").1.err ≠ none ∨
      ∃ e, env.Parse (env.Execute c.host "cat /etc/passwd").1.so = Except.error e) :
    ∃ e, (GetUsers env c).1 = Except.error e := by
  have hE := GetUsers_empty env c hc
  simp only [readCmd] at hE
  cases hx : (env.Execute c.host "cat /etc/passwd").1.err with
  | some e0 =>
    rw [hE]; simp only [hx]; exact ⟨_, rfl⟩
  | none =>
    rcases hf with hf | ⟨e, he⟩
    · exact absurd hx hf
    · rw [hE]; simp only [hx, he]; exact ⟨_, rfl⟩

/-- `CreateHome` only appends to the trace, starting with its own entry. -/
theorem CreateHome_trace (env : Env σ) (c : Client σ) (u : User) :
    ∃ rest, (CreateHome env c u).2.trace = c.trace ++ Event.createHome u :: rest := by
  by_cases hn : u.Name = ""
  · exact ⟨[], by simp [CreateHome, hn]⟩
  · rw [CreateHome_named env c u hn]
    cases h1 : (createSSHDir env { c with trace := c.trace ++ [Event.createHome u] }
        (homeOf u)).1 with
    | some err => exact ⟨[Event.createSSHDir (homeOf u)], by simp [createSSHDir]⟩
    | none =>
      simp only []
      cases h2 : (Execute env
          (createSSHDir env { c with trace := c.trace ++ [Event.createHome u] }
            (homeOf u)).2 (copyCmd env u)).1.err with
      | some err =>
        exact ⟨[Event.createSSHDir (homeOf u), Event.exec (copyCmd env u)],
          by simp [createSSHDir, Execute]⟩
      | none =>
        simp only []
        cases h3 : (chownHomedir env (Execute env
            (createSSHDir env { c with trace := c.trace ++ [Event.createHome u] }
              (homeOf u)).2 (copyCmd env u)).2 (homeOf u)).1 with
        | some err =>
          exact ⟨[Event.createSSHDir (homeOf u), Event.exec (copyCmd env u),
            Event.chownHomedir (homeOf u)], by simp [createSSHDir, Execute, chownHomedir]⟩
        | none =>
          exact ⟨[Event.createSSHDir (homeOf u), Event.exec (copyCmd env u),
            Event.chownHomedir (homeOf u)], by simp [createSSHDir, Execute, chownHomedir]⟩

/-- C20: for every client with an Empty cache whose remote database read fails
(in execution or in parsing) and every user with non-empty Name, the lookup of
`AddUser` reports "no match" exactly as for an absent account, and `AddUser`
does not abort: right after the failed read it issues the account-creation
command `user.UserAdd()`, whatever the remote database holds. -/
theorem C20_AddUser_unreadable_database (env : Env σ) (c : Client σ) (user : User)
    (createHome : Bool) (hc : c.UsersCache = none)
    (hf : (env.Execute c.host "cat /etc/passwd").1.err ≠ none ∨
      ∃ e, env.Parse (env.Execute c.host "cat /etc/passwd").1.so = Except.error e)
    (hn : user.Name ≠ "") :
    (FindUser env c user).1 = (none, none) ∧
    ∃ rest, (AddUser env c user createHome).2.trace =
      c.trace ++ [Event.exec "cat /etc/passwd", Event.exec (env.UserAdd user)] ++ rest := by
  obtain ⟨e, he⟩ := GetUsers_read_failed env c hc hf
  have hF := FindUser_of_error env c user e he
  have h0 : (FindUser env c user).1.1 = none := by rw [hF]
  have hre : readEvents c = [Event.exec "cat /etc/passwd"] := by
    simp [readEvents, hc, readCmd]
  refine ⟨by rw [hF], ?_⟩
  cases hx : (Execute env (FindUser env c user).2 (env.UserAdd user)).1.err with
  | some err =>
    refine ⟨[], ?_⟩
    rw [AddUser_exec_failed env c user createHome err hn h0 hx, Execute_trace, FindUser_trace,
      hre]
    simp
  | none =>
    have hA := AddUser_exec_ok env c user createHome hn h0 hx
    have hT := verify_trace env c user (env.UserAdd user)
    rw [hre] at hT
    cases hv : (FindUser env (afterCommand env c user (env.UserAdd user)) user).1.1 with
    | none =>
      refine ⟨[Event.exec "cat /etc/passwd"], ?_⟩
      rw [hA]; simp only [hv]
      rw [hT]; simp
    | some u =>
      simp only [hv] at hA
      cases createHome with
      | false =>
        refine ⟨[Event.exec "cat /etc/passwd"], ?_⟩
        rw [hA]
        simp only [Bool.false_eq_true, if_false]
        rw [hT]; simp
      | true =>
        obtain ⟨rest, hr⟩ := CreateHome_trace env
          (FindUser env (afterCommand env c user (env.UserAdd user)) user).2 u
        refine ⟨Event.exec "cat /etc/passwd" :: Event.createHome u :: rest, ?_⟩
        rw [hA]
        simp only [if_true]
        rw [hr, hT]; simp

/-- C20 on a scripted channel: the read fails, the creation command is issued
and fails because the account exists, as the last reply would have shown. -/
theorem C20_AddUser_unreadable_database_witness :
    (FindUser scriptEnv
      (freshClient [failReply "connection reset", failReply "useradd: user bob already exists",
        okReply dbRootBob]) (nameQuery "bob")).1 = (none, none) ∧
    (AddUser scriptEnv
      (freshClient [failReply "connection reset", failReply "useradd: user bob already exists",
        okReply dbRootBob]) (nameQuery "bob") false).2.trace =
      [Event.exec "cat /etc/passwd", Event.exec "useradd bob"] :=
  ⟨(C20_AddUser_unreadable_database scriptEnv
      (freshClient [failReply "connection reset", failReply "useradd: user bob already exists",
        okReply dbRootBob]) (nameQuery "bob") false rfl (Or.inl (by decide)) (by decide)).1,
   by decide⟩

/-! ## C19: the deletion command is built from the resolved record -/

/-- C19, as stated, fails in three ways, each with a query whose UID is that
of an earlier record and whose Name is that of a later, different record.
(a) On a database with unique names and uids the command targets the earlier
record `bob`, but the command fails and `DeleteUser` returns no record.
(b) When the queried name also occurs before the earlier record, the lookup
resolves that first record and the command targets it, not the record with the
queried uid. (c) When the earlier record has an empty name, `DeleteUser` stops
at its name check: no deletion command is issued and no record is returned. -/
theorem C19_earlier_record_not_returned :
    ((GetUsers scriptEnv (freshClient [okReply dbRootBobCarol, failReply "userdel: busy"])).1 =
        Except.ok [rootUser, bobUser, carolUser] ∧
      (DeleteUser scriptEnv (freshClient [okReply dbRootBobCarol, failReply "userdel: busy"])
        (query "carol" "1001") false).2.trace =
        [Event.exec "cat /etc/passwd", Event.exec "userdel bob"] ∧
      (DeleteUser scriptEnv (freshClient [okReply dbRootBobCarol, failReply "userdel: busy"])
        (query "carol" "1001") false).1.1 = none) ∧
    ((GetUsers scriptEnv
        (freshClient [okReply dbCarolBobCarol, okReply "", okReply dbCarolBobCarol])).1 =
        Except.ok [carol0User, bobUser, carolUser] ∧
      (DeleteUser scriptEnv
        (freshClient [okReply dbCarolBobCarol, okReply "", okReply dbCarolBobCarol])
        (query "carol" "1001") false).2.trace =
        [Event.exec "cat /etc/passwd", Event.exec "userdel carol",
         Event.exec "cat /etc/passwd"] ∧
      (DeleteUser scriptEnv
        (freshClient [okReply dbCarolBobCarol, okReply "", okReply dbCarolBobCarol])
        (query "carol" "1001") false).1.1 = some carol0User) ∧
    ((GetUsers scriptEnv (freshClient [okReply dbNamelessCarol, okReply ""])).1 =
        Except.ok [namelessUser, carolUser] ∧
      (DeleteUser scriptEnv (freshClient [okReply dbNamelessCarol, okReply ""])
        (query "carol" "1001") false).2.trace = [Event.exec "cat /etc/passwd"] ∧
      (DeleteUser scriptEnv (freshClient [okReply dbNamelessCarol, okReply ""])
        (query "carol" "1001") false).1 =
        (none, some (Error.new "user name cannot be empty"))) := by
  refine ⟨⟨by decide, by decide, by decide⟩, ⟨by decide, by decide, by decide⟩,
    ⟨by decide, by decide, by decide⟩⟩

/-- C19, amended: the deletion command `DeleteUser` issues is built from the
record resolved by `FindUser` and the caller's flag, not from the query. For
every query whose UID equals the UID of an earlier record `a` and whose Name
equals the Name of a later, different record `b`, provided `a` is the first
record of the sequence that matches the query (as it is when names and uids
are unique) and has a non-empty Name: the lookup resolves `a`; the command
issued is `a.UserDelete(removeHome)`, followed at most by the verification
read; and `a` is the record returned whenever the command succeeds, while a
failed command returns no record. -/
theorem C19_DeleteUser_targets_resolved (env : Env σ) (c : Client σ) (q : User)
    (removeHome : Bool) (users before after : List User) (a b : User)
    (hG : (GetUsers env c).1 = Except.ok users) (hsplit : users = before ++ a :: after)
    (_hb : b ∈ after) (_hab : b ≠ a) (hu : a.UID = q.UID) (_hbn : b.Name = q.Name)
    (hfirst : ∀ x ∈ before, ¬ codeMatch q x) (hn : a.Name ≠ "") :
    (FindUser env c q).1.1 = some a ∧
    (∃ rest, (DeleteUser env c q removeHome).2.trace =
        c.trace ++ readEvents c ++ Event.exec (env.UserDelete a removeHome) :: rest ∧
      (rest = [] ∨ rest = [Event.exec "cat /etc/passwd"])) ∧
    ((env.Execute (FindUser env c q).2.host (env.UserDelete a removeHome)).1.err = none →
      (DeleteUser env c q removeHome).1.1 = some a) ∧
    ((env.Execute (FindUser env c q).2.host (env.UserDelete a removeHome)).1.err ≠ none →
      (DeleteUser env c q removeHome).1.1 = none) := by
  have hl : FindUser.loop q users = some a :=
    (loop_eq_some q users a).2 ⟨before, after, hsplit, Or.inl hu, hfirst⟩
  have h0 : (FindUser env c q).1.1 = some a := by
    rw [FindUser_of_ok env c q users hG]; exact hl
  refine ⟨h0, ?_⟩
  cases hx : (Execute env (FindUser env c q).2 (env.UserDelete a removeHome)).1.err with
  | some err =>
    have hD := DeleteUser_exec_failed env c q a removeHome err h0 hn hx
    have hx2 : (env.Execute (FindUser env c q).2.host (env.UserDelete a removeHome)).1.err =
        some err := hx
    refine ⟨⟨[], ?_, Or.inl rfl⟩, ?_, ?_⟩
    · rw [hD, Execute_trace, FindUser_trace]
    · intro h; rw [hx2] at h; cases h
    · intro _; rw [hD]
  | none =>
    have hD := DeleteUser_exec_ok env c q a removeHome h0 hn hx
    have hx2 : (env.Execute (FindUser env c q).2.host (env.UserDelete a removeHome)).1.err =
        none := hx
    have hT := verify_trace env c q (env.UserDelete a removeHome)
    refine ⟨⟨[Event.exec "cat /etc/passwd"], ?_, Or.inr rfl⟩, ?_, ?_⟩
    · rw [hD]
      cases hv : (FindUser env (afterCommand env c q (env.UserDelete a removeHome)) q).1.1 <;>
        simp only [] <;> rw [hT]
    · intro _
      rw [hD]
      cases hv : (FindUser env (afterCommand env c q (env.UserDelete a removeHome)) q).1.1 <;>
        rfl
    · intro h; exact absurd hx2 h

/-- C19, amended, on the three-account database: the query carries the uid of
`bob` and the name of `carol`; the command deletes `bob`, and `bob` is the
record returned. -/
theorem C19_DeleteUser_targets_resolved_witness :
    (FindUser scriptEnv (freshClient [okReply dbRootBobCarol, okReply "", okReply dbRoot])
      (query "carol" "1001")).1.1 = some bobUser ∧
    (DeleteUser scriptEnv (freshClient [okReply dbRootBobCarol, okReply "", okReply dbRoot])
      (query "carol" "1001") true).1.1 = some bobUser ∧
    (DeleteUser scriptEnv (freshClient [okReply dbRootBobCarol, okReply "", okReply dbRoot])
      (query "carol" "1001") true).2.trace =
      [Event.exec "cat /etc/passwd", Event.exec "userdel -r bob", Event.exec "cat /etc/passwd"] :=
  ⟨(C19_DeleteUser_targets_resolved scriptEnv
      (freshClient [okReply dbRootBobCarol, okReply "", okReply dbRoot]) (query "carol" "1001")
      true [rootUser, bobUser, carolUser] [rootUser] [carolUser] bobUser carolUser
      (by decide) (by decide) (by decide) (by decide) (by decide) (by decide) (by decide)
      (by decide)).1,
   (C19_DeleteUser_targets_resolved scriptEnv
      (freshClient [okReply dbRootBobCarol, okReply "", okReply dbRoot]) (query "carol" "1001")
      true [rootUser, bobUser, carolUser] [rootUser] [carolUser] bobUser carolUser
      (by decide) (by decide) (by decide) (by decide) (by decide) (by decide) (by decide)
      (by decide)).2.2.1 (by decide),
   by decide⟩

/-! ## C17: the cache invariant -/

theorem replay_snoc (env : Env σ) (h0 : σ) (evs : List Event) (e : Event) :
    replay env h0 (evs ++ [e]) = replayStep env (replay env h0 evs) e := by
  simp [replay, List.foldl_append]

theorem replayStep_fst (env : Env σ) (h : σ) (l l2 : Option (List User)) (e : Event) :
    (replayStep env (h, l) e).1 = (replayStep env (h, l2) e).1 := by
  cases e <;> rfl

/-- One traced event preserves the invariant when the host follows the event
and the cache is cleared, or kept while the event is no successful read, or
set to what the event makes the most recent successful read. -/
theorem CacheInv_event (env : Env σ) (c0 c c1 : Client σ) (e : Event)
    (h : CacheInv env c0 c) (ht : c1.trace = c.trace ++ [e])
    (hh : c1.host = (replayStep env (c.host, none) e).1)
    (hcache : c1.UsersCache = none ∨
      (c1.UsersCache = c.UsersCache ∧ ∀ l, (replayStep env (c.host, l) e).2 = l) ∨
      (∀ l, (replayStep env (c.host, l) e).2 = c1.UsersCache)) :
    CacheInv env c0 c1 := by
  obtain ⟨evs, htr, hhost, hc⟩ := h
  refine ⟨evs ++ [e], by rw [ht, htr, List.append_assoc], ?_, ?_⟩
  · rw [replay_snoc, hh]
    have : replay env c0.host evs = (c.host, (replay env c0.host evs).2) := by
      rw [hhost]
    rw [this]
    exact replayStep_fst env c.host none _ e
  · have hrep : replay env c0.host evs = (c.host, (replay env c0.host evs).2) := by
      rw [hhost]
    rw [replay_snoc, hrep]
    rcases hcache with h1 | ⟨h1, h2⟩ | h1
    · exact Or.inl h1
    · rw [h2, h1]
      exact hc
    · right
      exact (h1 _).symm

theorem CacheInv_congr (env : Env σ) (c0 c c1 : Client σ) (h : CacheInv env c0 c)
    (ht : c1.trace = c.trace) (hh : c1.host = c.host) (hc : c1.UsersCache = c.UsersCache) :
    CacheInv env c0 c1 := by
  obtain ⟨evs, htr, hhost, hcache⟩ := h
  exact ⟨evs, by rw [ht, htr], by rw [hh, hhost], by rw [hc]; exact hcache⟩

theorem CacheInv_refl (env : Env σ) (c0 : Client σ) (hc : c0.UsersCache = none) :
    CacheInv env c0 c0 :=
  ⟨[], by simp, rfl, Or.inl hc⟩

theorem CacheInv_clear (env : Env σ) (c0 c : Client σ) (h : CacheInv env c0 c) :
    CacheInv env c0 (ClearUserCache c).2 := by
  obtain ⟨evs, htr, hhost, _⟩ := h
  exact ⟨evs, htr, hhost, Or.inl rfl⟩

theorem GetUsers_host (env : Env σ) (c : Client σ) (hc : c.UsersCache = none) :
    (GetUsers env c).2.host = (env.Execute c.host readCmd).2 := by
  rw [GetUsers_empty env c hc]
  cases (env.Execute c.host readCmd).1.err with
  | some e => rfl
  | none =>
    simp only []
    cases env.Parse (env.Execute c.host readCmd).1.so <;> rfl

theorem CacheInv_GetUsers (env : Env σ) (c0 c : Client σ) (h : CacheInv env c0 c) :
    CacheInv env c0 (GetUsers env c).2 := by
  cases hc : c.UsersCache with
  | some users => rw [GetUsers_populated env c users hc]; exact h
  | none =>
    refine CacheInv_event env c0 c _ (Event.exec readCmd) h ?_ ?_ ?_
    · rw [GetUsers_trace]; simp [readEvents, hc]
    · rw [GetUsers_host env c hc]; rfl
    · rw [GetUsers_empty_cache env c hc]
      cases hr : reload env c.host with
      | none => exact Or.inl rfl
      | some users =>
        right; right
        intro l
        simp [replayStep, hr]

theorem CacheInv_FindUser (env : Env σ) (c0 c : Client σ) (q : User)
    (h : CacheInv env c0 c) : CacheInv env c0 (FindUser env c q).2 :=
  CacheInv_congr env c0 _ _ (CacheInv_GetUsers env c0 c h)
    (by rw [FindUser_trace, GetUsers_trace]) (FindUser_host env c q) (FindUser_cache env c q)

theorem copyCmd_ne_readCmd (env : Env σ) (u : User) : copyCmd env u ≠ readCmd := by
  intro h
  have h2 := congrArg String.data h
  have e1 : (copyCmd env u).data =
      'c' :: 'p' :: (" -rT /etc/skel ".data ++ (env.Quote (homeOf u).Home).data) := by
    unfold copyCmd
    rw [String.data_append]
    rfl
  have e2 : readCmd.data = 'c' :: 'a' :: "t /etc/passwd".data := rfl
  rw [e1, e2] at h2
  injection h2 with _ h3
  injection h3 with h4 _
  exact absurd h4 (by decide)

/-- A command followed by `ClearUserCache` preserves the invariant. -/
theorem CacheInv_Execute_clear (env : Env σ) (c0 c : Client σ) (cmd : String)
    (h : CacheInv env c0 c) : CacheInv env c0 (ClearUserCache (Execute env c cmd).2).2 :=
  CacheInv_event env c0 c _ (Event.exec cmd) h rfl rfl (Or.inl rfl)

/-- A command that is not the database read preserves the invariant. -/
theorem CacheInv_Execute_other (env : Env σ) (c0 c : Client σ) (cmd : String)
    (h : CacheInv env c0 c) (hne : cmd ≠ readCmd) : CacheInv env c0 (Execute env c cmd).2 :=
  CacheInv_event env c0 c _ (Event.exec cmd) h rfl rfl
    (Or.inr (Or.inl ⟨rfl, fun l => by simp [replayStep, hne]⟩))

/-- A command that fails preserves the invariant. -/
theorem CacheInv_Execute_failed (env : Env σ) (c0 c : Client σ) (cmd : String) (err : Error)
    (h : CacheInv env c0 c) (hx : (Execute env c cmd).1.err = some err) :
    CacheInv env c0 (Execute env c cmd).2 := by
  refine CacheInv_event env c0 c _ (Event.exec cmd) h rfl rfl (Or.inr (Or.inl ⟨rfl, ?_⟩))
  intro l
  by_cases hcmd : cmd = readCmd
  · subst hcmd
    have hx2 : (env.Execute c.host readCmd).1.err = some err := hx
    have hr : reload env c.host = none := by simp [reload, hx2]
    simp [replayStep, hr]
  · simp [replayStep, hcmd]

theorem CacheInv_createSSHDir (env : Env σ) (c0 c : Client σ) (u : User)
    (h : CacheInv env c0 c) : CacheInv env c0 (createSSHDir env c u).2 :=
  CacheInv_event env c0 c _ (Event.createSSHDir u) h rfl rfl
    (Or.inr (Or.inl ⟨rfl, fun _ => rfl⟩))

theorem CacheInv_chownHomedir (env : Env σ) (c0 c : Client σ) (u : User)
    (h : CacheInv env c0 c) : CacheInv env c0 (chownHomedir env c u).2 :=
  CacheInv_event env c0 c _ (Event.chownHomedir u) h rfl rfl
    (Or.inr (Or.inl ⟨rfl, fun _ => rfl⟩))

theorem CacheInv_enter (env : Env σ) (c0 c : Client σ) (u : User) (h : CacheInv env c0 c) :
    CacheInv env c0 { c with trace := c.trace ++ [Event.createHome u] } :=
  CacheInv_event env c0 c _ (Event.createHome u) h rfl rfl
    (Or.inr (Or.inl ⟨rfl, fun _ => rfl⟩))

theorem CacheInv_CreateHome (env : Env σ) (c0 c : Client σ) (u : User)
    (h : CacheInv env c0 c) : CacheInv env c0 (CreateHome env c u).2 := by
  have hA := CacheInv_enter env c0 c u h
  by_cases hn : u.Name = ""
  · have : CreateHome env c u =
        ((none, some (Error.new "user name cannot be empty")),
         { c with trace := c.trace ++ [Event.createHome u] }) := by
      simp [CreateHome, hn]
    rw [this]; exact hA
  · have hB := CacheInv_createSSHDir env c0 _ (homeOf u) hA
    have hC := CacheInv_Execute_other env c0 _ (copyCmd env u) hB (copyCmd_ne_readCmd env u)
    have hD := CacheInv_chownHomedir env c0 _ (homeOf u) hC
    rw [CreateHome_named env c u hn]
    cases h1 : (createSSHDir env { c with trace := c.trace ++ [Event.createHome u] }
        (homeOf u)).1 with
    | some err => exact hB
    | none =>
      simp only []
      cases h2 : (Execute env
          (createSSHDir env { c with trace := c.trace ++ [Event.createHome u] }
            (homeOf u)).2 (copyCmd env u)).1.err with
      | some err => exact hC
      | none =>
        simp only []
        cases h3 : (chownHomedir env (Execute env
            (createSSHDir env { c with trace := c.trace ++ [Event.createHome u] }
              (homeOf u)).2 (copyCmd env u)).2 (homeOf u)).1 with
        | some err => exact hD
        | none => exact hD

theorem CacheInv_AddUser (env : Env σ) (c0 c : Client σ) (user : User) (createHome : Bool)
    (h : CacheInv env c0 c) : CacheInv env c0 (AddUser env c user createHome).2 := by
  by_cases hn : user.Name = ""
  · have : AddUser env c user createHome =
        ((none, some (Error.new "user name cannot be empty")), c) := by
      simp [AddUser, hn]
    rw [this]; exact h
  · have hF := CacheInv_FindUser env c0 c user h
    cases h0 : (FindUser env c user).1.1 with
    | some u => rw [AddUser_found env c user u createHome hn h0]; exact hF
    | none =>
      cases hx : (Execute env (FindUser env c user).2 (env.UserAdd user)).1.err with
      | some err =>
        rw [AddUser_exec_failed env c user createHome err hn h0 hx]
        exact CacheInv_Execute_failed env c0 _ _ err hF hx
      | none =>
        have hV : CacheInv env c0
            (FindUser env (afterCommand env c user (env.UserAdd user)) user).2 :=
          CacheInv_FindUser env c0 _ user (CacheInv_Execute_clear env c0 _ _ hF)
        rw [AddUser_exec_ok env c user createHome hn h0 hx]
        cases hv : (FindUser env (afterCommand env c user (env.UserAdd user)) user).1.1 with
        | none => exact hV
        | some u =>
          simp only []
          cases createHome with
          | false => exact hV
          | true => exact CacheInv_CreateHome env c0 _ u hV

theorem DeleteUser_nameless (env : Env σ) (c : Client σ) (user u : User) (removeHome : Bool)
    (h : (FindUser env c user).1.1 = some u) (hn : u.Name = "") :
    DeleteUser env c user removeHome =
      ((none, some (Error.new "user name cannot be empty")), (FindUser env c user).2) := by
  rcases hF : FindUser env c user with ⟨⟨ou, oe⟩, c1⟩
  rw [hF] at h
  simp at h
  subst h
  simp [DeleteUser, hn, hF]

theorem CacheInv_DeleteUser (env : Env σ) (c0 c : Client σ) (q : User) (removeHome : Bool)
    (h : CacheInv env c0 c) : CacheInv env c0 (DeleteUser env c q removeHome).2 := by
  have hF := CacheInv_FindUser env c0 c q h
  cases h0 : (FindUser env c q).1.1 with
  | none => rw [DeleteUser_not_found env c q removeHome h0]; exact hF
  | some u =>
    by_cases hn : u.Name = ""
    · rw [DeleteUser_nameless env c q u removeHome h0 hn]; exact hF
    · cases hx : (Execute env (FindUser env c q).2 (env.UserDelete u removeHome)).1.err with
      | some err =>
        rw [DeleteUser_exec_failed env c q u removeHome err h0 hn hx]
        exact CacheInv_Execute_failed env c0 _ _ err hF hx
      | none =>
        have hV : CacheInv env c0
            (FindUser env (afterCommand env c q (env.UserDelete u removeHome)) q).2 :=
          CacheInv_FindUser env c0 _ q (CacheInv_Execute_clear env c0 _ _ hF)
        rw [DeleteUser_exec_ok env c q u removeHome h0 hn hx]
        cases hv : (FindUser env (afterCommand env c q (env.UserDelete u removeHome)) q).1.1 <;>
          exact hV

theorem CacheInv_step (env : Env σ) (c0 c : Client σ) (op : Op) (h : CacheInv env c0 c) :
    CacheInv env c0 (step env c op) := by
  cases op with
  | getUsers => exact CacheInv_GetUsers env c0 c h
  | clearUserCache => exact CacheInv_clear env c0 c h
  | findUser q => exact CacheInv_FindUser env c0 c q h
  | addUser user createHome => exact CacheInv_AddUser env c0 c user createHome h
  | deleteUser q removeHome => exact CacheInv_DeleteUser env c0 c q removeHome h
  | createHome u => exact CacheInv_CreateHome env c0 c u h

theorem CacheInv_run (env : Env σ) (c0 c : Client σ) (ops : List Op) (h : CacheInv env c0 c) :
    CacheInv env c0 (run env c ops) := by
  induction ops generalizing c with
  | nil => exact h
  | cons op rest ih => exact ih (step env c op) (CacheInv_step env c0 c op h)

/-- The most recent successful read recorded by a replay is the complete
sequence the parser returned for the text of one executed read. -/
theorem replay_last_read (env : Env σ) (h0 : σ) (evs : List Event) (users : List User)
    (h : (replay env h0 evs).2 = some users) :
    ∃ host, (env.Execute host "cat /etc/passwd").1.err = none ∧
      env.Parse (env.Execute host "cat /etc/passwd").1.so = Except.ok users := by
  induction evs using List.reverseRecOn generalizing users with
  | nil => simp [replay] at h
  | append_singleton evs e ih =>
    rw [replay_snoc] at h
    cases e with
    | exec cmd =>
      by_cases hcmd : cmd = readCmd
      · subst hcmd
        cases hr : reload env (replay env h0 evs).1 with
        | none =>
          simp [replayStep, hr] at h
          exact ih users h
        | some us =>
          simp [replayStep, hr] at h
          subst h
          refine ⟨(replay env h0 evs).1, ?_⟩
          unfold reload at hr
          simp only [readCmd] at hr
          cases hx : (env.Execute (replay env h0 evs).1 "cat /etc/passwd").1.err with
          | some e0 => simp [hx] at hr
          | none =>
            simp only [hx] at hr
            cases hp : env.Parse (env.Execute (replay env h0 evs).1 "cat /etc/passwd").1.so with
            | error e1 => simp [hp] at hr
            | ok us2 =>
              simp only [hp, Option.some.injEq] at hr
              subst hr
              exact ⟨rfl, rfl⟩
      · simp [replayStep, hcmd] at h
        exact ih users h
    | createHome u => exact ih users h
    | createSSHDir u => exact ih users h
    | chownHomedir u => exact ih users h

/-- C17: over every sequence of `GetUsers`, `ClearUserCache`, `FindUser`,
`AddUser`, `DeleteUser` and `CreateHome` calls starting from a client `c0`
with an Empty cache, at every point (after every such sequence `ops`, hence
after each of its prefixes) the events traced since `c0` lead from the host of
`c0` to the current host, and the cache is either Empty or holds exactly the
parse result of the most recent successful database read among those events:
the complete sequence, in the parser's order, that `Parse` returned for the
text of that read. -/
theorem C17_cache_invariant (env : Env σ) (c0 : Client σ) (hc : c0.UsersCache = none)
    (ops : List Op) :
    ∃ evs, (run env c0 ops).trace = c0.trace ++ evs ∧
      (run env c0 ops).host = (replay env c0.host evs).1 ∧
      ((run env c0 ops).UsersCache = none ∨
        ∃ users, (run env c0 ops).UsersCache = some users ∧
          (replay env c0.host evs).2 = some users ∧
          ∃ host, (env.Execute host "cat /etc/passwd").1.err = none ∧
            env.Parse (env.Execute host "cat /etc/passwd").1.so = Except.ok users) := by
  obtain ⟨evs, htr, hhost, hcache⟩ := CacheInv_run env c0 c0 ops (CacheInv_refl env c0 hc)
  refine ⟨evs, htr, hhost, ?_⟩
  cases hu : (run env c0 ops).UsersCache with
  | none => exact Or.inl rfl
  | some users =>
    right
    rw [hu] at hcache
    rcases hcache with h | h
    · cases h
    · exact ⟨users, rfl, h.symm, replay_last_read env c0.host evs users h.symm⟩

/-- C17 on a scripted channel: after a lookup, an account creation and a
further lookup the cache holds the database as read after the creation
command, the most recent successful read of the replayed trace. -/
theorem C17_cache_invariant_witness :
    (∃ evs,
      (run scriptEnv (freshClient [okReply dbRoot, okReply "", okReply dbRootBob])
        [Op.getUsers, Op.addUser (nameQuery "bob") false, Op.findUser (nameQuery "bob")]).trace =
        (freshClient [okReply dbRoot, okReply "", okReply dbRootBob]).trace ++ evs ∧
      (run scriptEnv (freshClient [okReply dbRoot, okReply "", okReply dbRootBob])
        [Op.getUsers, Op.addUser (nameQuery "bob") false, Op.findUser (nameQuery "bob")]).host =
        (replay scriptEnv (freshClient [okReply dbRoot, okReply "", okReply dbRootBob]).host
          evs).1 ∧
      ((run scriptEnv (freshClient [okReply dbRoot, okReply "", okReply dbRootBob])
        [Op.getUsers, Op.addUser (nameQuery "bob") false,
          Op.findUser (nameQuery "bob")]).UsersCache = none ∨
        ∃ users,
          (run scriptEnv (freshClient [okReply dbRoot, okReply "", okReply dbRootBob])
            [Op.getUsers, Op.addUser (nameQuery "bob") false,
              Op.findUser (nameQuery "bob")]).UsersCache = some users ∧
          (replay scriptEnv (freshClient [okReply dbRoot, okReply "", okReply dbRootBob]).host
            evs).2 = some users ∧
          ∃ host, (scriptEnv.Execute host "cat /etc/passwd").1.err = none ∧
            scriptEnv.Parse (scriptEnv.Execute host "cat /etc/passwd").1.so =
              Except.ok users)) ∧
    (run scriptEnv (freshClient [okReply dbRoot, okReply "", okReply dbRootBob])
      [Op.getUsers, Op.addUser (nameQuery "bob") false,
        Op.findUser (nameQuery "bob")]).UsersCache = some [rootUser, bobUser] ∧
    (replay scriptEnv [okReply dbRoot, okReply "", okReply dbRootBob]
      [Event.exec "cat /etc/passwd", Event.exec "useradd bob",
        Event.exec "cat /etc/passwd"]).2 = some [rootUser, bobUser] :=
  ⟨C17_cache_invariant scriptEnv (freshClient [okReply dbRoot, okReply "", okReply dbRootBob])
      rfl [Op.getUsers, Op.addUser (nameQuery "bob") false, Op.findUser (nameQuery "bob")],
   by decide, by decide⟩

end SSHKeyManager
